import Mathlib

/-!
Verification of the MosaicWM layout engine.

This file gives a shallow embedding, in Lean 4, of the layout engine of the
MosaicWM GNOME extension: the edge-tiling zone geometry and state machine
(src/extension/constants.js, class EdgeTilingManager), the mosaic packer and
tiling orchestrator (src/unnamed/part_004, class TilingManager) and the drag
reorder loop (src/extension/reordering.js, class ReorderingManager).

Modelling conventions:
* JavaScript numbers are modelled as rationals; all arithmetic in the
  source is exact on rationals (divisions by 2 and 3, additions,
  Math.floor) except Math.sqrt, which is only ever used monotonically to
  compare distances and is therefore modelled by the squared distance.
* The host windowing system (Meta) is modelled by a record per window
  carrying the fields the engine reads: id, frame rectangle, monitor,
  hidden / skip-taskbar / window-type flags, maximized and fullscreen
  state.  A single workspace with one work area is modelled; its window
  list, the per-window tiling states, the auto-tile dependency map, the
  committed swap list and the transient drag state live in a World record.
* JS Map objects are modelled as association lists with Map set/delete
  semantics; JS truthiness tests on nullable numbers are modelled
  explicitly (null and 0 are falsy).
* Asynchronous callbacks (GLib.idle_add / timeout_add) are out of scope
  except where a claim is about the synchronous part of an operation.
-/

set_option allowUnsafeReducibility true

-- Batteries marks the Rat field operations irreducible, which blocks the
-- evaluation of concrete scenarios by the decide tactic; restore the
-- default transparency for them (proof checking is unaffected).
attribute [local semireducible] Rat.mul Rat.inv Rat.div Rat.add Rat.sub Rat.neg

/-- Rectangle with rational coordinates, mirroring the {x, y, width, height}
objects used throughout the source. -/
structure Rect where
  x : ℚ
  y : ℚ
  width : ℚ
  height : ℚ
deriving DecidableEq, Repr

/-- The TileZone enum of src/extension/constants.js. -/
inductive TileZone where
  | NONE
  | LEFT_FULL
  | RIGHT_FULL
  | TOP_LEFT
  | TOP_RIGHT
  | BOTTOM_LEFT
  | BOTTOM_RIGHT
  | FULLSCREEN
deriving DecidableEq, Repr

/-- Host view of a Meta.Window: the fields the engine reads.  The excluded
flag abstracts the windowing collaborator blacklist (windowing.isExcluded). -/
structure Win where
  id : Nat
  frame : Rect
  monitor : Nat
  hidden : Bool
  skipTaskbar : Bool
  winType : Nat
  maximizedH : Bool
  maximizedV : Bool
  fullscreen : Bool
  minimized : Bool
  excluded : Bool
deriving DecidableEq, Repr

/-- Meta.WindowType.NORMAL. -/
def metaWindowTypeNormal : Nat := 0

/-- Saved per-window tiling state: pre-tiling geometry plus current zone
(the windowStates map entries of EdgeTilingManager). -/
structure WState where
  x : ℚ
  y : ℚ
  width : ℚ
  height : ℚ
  zone : TileZone
deriving DecidableEq, Repr

/-- WINDOW_SPACING from src/extension/constants.js. -/
def WINDOW_SPACING : ℚ := 8

/-- EDGE_TILING_THRESHOLD from src/extension/constants.js. -/
def EDGE_TILING_THRESHOLD : ℚ := 10

/-- Association-list lookup, modelling JS Map.get. -/
def mapGet (m : List (Nat × α)) (k : Nat) : Option α :=
  (m.find? (fun p => p.1 == k)).map (·.2)

/-- JS Map.set: replace the binding of the key if present, else append. -/
def mapSet (m : List (Nat × α)) (k : Nat) (v : α) : List (Nat × α) :=
  if (m.find? (fun p => p.1 == k)).isSome then
    m.map (fun p => if p.1 == k then (k, v) else p)
  else
    m ++ [(k, v)]

/-- JS Map.delete. -/
def mapDelete (m : List (Nat × α)) (k : Nat) : List (Nat × α) :=
  m.filter (fun p => p.1 != k)

/-- JS truthiness of a nullable number: null and 0 are falsy. -/
def optTruthy (o : Option ℚ) : Bool :=
  match o with
  | none => false
  | some v => v != 0

/-- Value of a nullable number at a use site where it is known truthy. -/
def optVal (o : Option ℚ) : ℚ := o.getD 0

/-- Edge tiling state of EdgeTilingManager plus the host window list of the
modelled workspace. -/
structure ETState where
  windows : List Win
  states : List (Nat × WState)
  deps : List (Nat × Nat)
  resizeListeners : List Nat
deriving DecidableEq, Repr

/-- Lookup of getWindowState by id. -/
def lookupState (states : List (Nat × WState)) (winId : Nat) : Option WState :=
  mapGet states winId

/-- Zone of a window id: NONE when no state is saved (mosaic-managed). -/
def zoneOf (states : List (Nat × WState)) (winId : Nat) : TileZone :=
  match lookupState states winId with
  | some st => st.zone
  | none => TileZone.NONE

/-- The isQuarterZone helper of constants.js. -/
def isQuarterZone (z : TileZone) : Bool :=
  z == TileZone.TOP_LEFT || z == TileZone.BOTTOM_LEFT ||
  z == TileZone.TOP_RIGHT || z == TileZone.BOTTOM_RIGHT

/-- The getAdjacentQuarterZone helper: vertical sibling of a quarter zone. -/
def getAdjacentQuarterZone (z : TileZone) : Option TileZone :=
  match z with
  | TileZone.TOP_LEFT => some TileZone.BOTTOM_LEFT
  | TileZone.BOTTOM_LEFT => some TileZone.TOP_LEFT
  | TileZone.TOP_RIGHT => some TileZone.BOTTOM_RIGHT
  | TileZone.BOTTOM_RIGHT => some TileZone.TOP_RIGHT
  | _ => none

/-- The getFullZoneFromQuarter helper. -/
def getFullZoneFromQuarter (z : TileZone) : TileZone :=
  if z == TileZone.TOP_LEFT || z == TileZone.BOTTOM_LEFT then
    TileZone.LEFT_FULL
  else
    TileZone.RIGHT_FULL

/-- Membership of a zone among the left-side zones (full or quarter). -/
def isLeftSideZone (z : TileZone) : Bool :=
  z == TileZone.LEFT_FULL || z == TileZone.TOP_LEFT || z == TileZone.BOTTOM_LEFT

/-- Membership of a zone among the right-side zones (full or quarter). -/
def isRightSideZone (z : TileZone) : Bool :=
  z == TileZone.RIGHT_FULL || z == TileZone.TOP_RIGHT || z == TileZone.BOTTOM_RIGHT

/-- The hasEdgeTiledWindows helper of EdgeTilingManager: whether any
workspace window is tiled to the given side (true selects left). -/
def hasEdgeTiledWindows (et : ETState) (left : Bool) : Bool :=
  et.windows.any (fun w =>
    match lookupState et.states w.id with
    | none => false
    | some st =>
      if st.zone == TileZone.NONE || st.zone == TileZone.FULLSCREEN then false
      else if left then isLeftSideZone st.zone
      else isRightSideZone st.zone)

/-- EdgeTilingManager.detectZone: map a cursor position inside the work area
to the zone a drop there would target. -/
def detectZone (et : ETState) (cursorX cursorY : ℚ) (workArea : Rect) : TileZone :=
  let threshold := EDGE_TILING_THRESHOLD
  let thirdY := workArea.height / 3
  if cursorY < workArea.y + threshold then TileZone.FULLSCREEN
  else if cursorX < workArea.x + threshold then
    if !(hasEdgeTiledWindows et true) then TileZone.LEFT_FULL
    else
      let relY := cursorY - workArea.y
      if relY < thirdY then TileZone.TOP_LEFT
      else if relY > workArea.height - thirdY then TileZone.BOTTOM_LEFT
      else TileZone.LEFT_FULL
  else if cursorX > workArea.x + workArea.width - threshold then
    if !(hasEdgeTiledWindows et false) then TileZone.RIGHT_FULL
    else
      let relY := cursorY - workArea.y
      if relY < thirdY then TileZone.TOP_RIGHT
      else if relY > workArea.height - thirdY then TileZone.BOTTOM_RIGHT
      else TileZone.RIGHT_FULL
  else TileZone.NONE

/-- Workspace windows visible to the zone geometry lookups: same monitor,
not hidden, of NORMAL type (the filter used inside getZoneRect and the
getExistingSideWidth / getExistingQuarterHeight helpers). -/
def visibleNormalWindows (et : ETState) (monitor : Nat) : List Win :=
  et.windows.filter (fun w =>
    w.monitor == monitor && !w.hidden && w.winType == metaWindowTypeNormal)

/-- EdgeTilingManager.getExistingSideWidth: frame width of the first
workspace window tiled on the given side (true selects left), or null. -/
def getExistingSideWidth (et : ETState) (monitor : Nat) (left : Bool) : Option ℚ :=
  let candidates := visibleNormalWindows et monitor
  let existing := candidates.find? (fun w =>
    match lookupState et.states w.id with
    | none => false
    | some st =>
      if st.zone == TileZone.NONE then false
      else if left then isLeftSideZone st.zone
      else isRightSideZone st.zone)
  existing.map (fun w => w.frame.width)

/-- EdgeTilingManager.getExistingQuarterHeight: frame height of the first
workspace window occupying the given quarter zone, or null. -/
def getExistingQuarterHeight (et : ETState) (monitor : Nat) (zone : TileZone) : Option ℚ :=
  let candidates := visibleNormalWindows et monitor
  let existing := candidates.find? (fun w =>
    match lookupState et.states w.id with
    | none => false
    | some st => st.zone == zone)
  existing.map (fun w => w.frame.height)

/-- Width of the window occupying the full zone opposite to the requested
LEFT_FULL / RIGHT_FULL zone, excluding the window being tiled (the
existingWidth computation at the top of getZoneRect), or null. -/
def oppositeFullWidth (et : ETState) (zone : TileZone) (win : Win) : Option ℚ :=
  let workspaceWindows := et.windows.filter (fun w =>
    w.monitor == win.monitor && w.id != win.id && !w.hidden &&
    w.winType == metaWindowTypeNormal)
  let oppositeZone : Option TileZone :=
    if zone == TileZone.LEFT_FULL then some TileZone.RIGHT_FULL
    else if zone == TileZone.RIGHT_FULL then some TileZone.LEFT_FULL
    else none
  match oppositeZone with
  | none => none
  | some oz =>
    (workspaceWindows.find? (fun w =>
      match lookupState et.states w.id with
      | none => false
      | some st => st.zone == oz)).map (fun w => w.frame.width)

/-- Side width helper at a getZoneRect call site: getExistingSideWidth is
reached with an undefined workspace when no windowToTile was passed, in
which case it returns null; a zero or null width falls back to halfWidth
through the JS or-else. -/
def sideWidthOr (et : ETState) (windowToTile : Option Win) (monitor : Nat)
    (left : Bool) (halfWidth : ℚ) : ℚ :=
  let sideWidth := if windowToTile.isSome then getExistingSideWidth et monitor left else none
  if optTruthy sideWidth then optVal sideWidth else halfWidth

/-- Quarter height helper at a getZoneRect call site, null when no
windowToTile was passed (undefined workspace). -/
def quarterHeightOpt (et : ETState) (windowToTile : Option Win) (monitor : Nat)
    (zone : TileZone) : Option ℚ :=
  if windowToTile.isSome then getExistingQuarterHeight et monitor zone else none

/-- The TOP_LEFT arm of getZoneRect. -/
def zoneRectTopLeft (et : ETState) (workArea : Rect) (windowToTile : Option Win)
    (monitor : Nat) (halfWidth halfHeight : ℚ) : Rect :=
  let leftWidth := sideWidthOr et windowToTile monitor true halfWidth
  let bottomHeight := quarterHeightOpt et windowToTile monitor TileZone.BOTTOM_LEFT
  ⟨workArea.x, workArea.y, leftWidth,
    if optTruthy bottomHeight then workArea.height - optVal bottomHeight
    else halfHeight⟩

/-- The TOP_RIGHT arm of getZoneRect. -/
def zoneRectTopRight (et : ETState) (workArea : Rect) (windowToTile : Option Win)
    (monitor : Nat) (halfWidth halfHeight : ℚ) : Rect :=
  let rightWidth := sideWidthOr et windowToTile monitor false halfWidth
  let bottomHeight := quarterHeightOpt et windowToTile monitor TileZone.BOTTOM_RIGHT
  ⟨workArea.x + workArea.width - rightWidth, workArea.y, rightWidth,
    if optTruthy bottomHeight then workArea.height - optVal bottomHeight
    else halfHeight⟩

/-- The BOTTOM_LEFT arm of getZoneRect. -/
def zoneRectBottomLeft (et : ETState) (workArea : Rect) (windowToTile : Option Win)
    (monitor : Nat) (halfWidth halfHeight : ℚ) : Rect :=
  let leftWidth := sideWidthOr et windowToTile monitor true halfWidth
  let topHeight := quarterHeightOpt et windowToTile monitor TileZone.TOP_LEFT
  ⟨workArea.x,
    (if optTruthy topHeight then workArea.y + optVal topHeight
    else workArea.y + halfHeight),
    leftWidth,
    (if optTruthy topHeight then workArea.height - optVal topHeight
    else workArea.height - halfHeight)⟩

/-- The BOTTOM_RIGHT arm of getZoneRect. -/
def zoneRectBottomRight (et : ETState) (workArea : Rect) (windowToTile : Option Win)
    (monitor : Nat) (halfWidth halfHeight : ℚ) : Rect :=
  let rightWidth := sideWidthOr et windowToTile monitor false halfWidth
  let topHeight := quarterHeightOpt et windowToTile monitor TileZone.TOP_RIGHT
  ⟨workArea.x + workArea.width - rightWidth,
    (if optTruthy topHeight then workArea.y + optVal topHeight
    else workArea.y + halfHeight),
    rightWidth,
    (if optTruthy topHeight then workArea.height - optVal topHeight
    else workArea.height - halfHeight)⟩

/-- EdgeTilingManager.getZoneRect: target rectangle for a zone, inheriting
widths and heights from existing occupants as the source does (the switch
arms are split into the zoneRect helper functions above). -/
def getZoneRect (et : ETState) (zone : TileZone) (workArea : Rect)
    (windowToTile : Option Win) : Option Rect :=
  let existingWidth : Option ℚ :=
    windowToTile.bind (fun win => oppositeFullWidth et zone win)
  let halfWidth : ℚ := (⌊workArea.width / 2⌋ : ℤ)
  let halfHeight : ℚ := (⌊workArea.height / 2⌋ : ℤ)
  let monitor : Nat := (windowToTile.map (fun win => win.monitor)).getD 0
  match zone with
  | TileZone.LEFT_FULL =>
    some ⟨workArea.x, workArea.y,
      if optTruthy existingWidth then workArea.width - optVal existingWidth
      else halfWidth,
      workArea.height⟩
  | TileZone.RIGHT_FULL =>
    some ⟨(if optTruthy existingWidth then workArea.x + optVal existingWidth
      else workArea.x + halfWidth),
      workArea.y,
      (if optTruthy existingWidth then workArea.width - optVal existingWidth
      else workArea.width - halfWidth),
      workArea.height⟩
  | TileZone.TOP_LEFT =>
    some (zoneRectTopLeft et workArea windowToTile monitor halfWidth halfHeight)
  | TileZone.TOP_RIGHT =>
    some (zoneRectTopRight et workArea windowToTile monitor halfWidth halfHeight)
  | TileZone.BOTTOM_LEFT =>
    some (zoneRectBottomLeft et workArea windowToTile monitor halfWidth halfHeight)
  | TileZone.BOTTOM_RIGHT =>
    some (zoneRectBottomRight et workArea windowToTile monitor halfWidth halfHeight)
  | TileZone.FULLSCREEN =>
    some ⟨workArea.x, workArea.y, workArea.width, workArea.height⟩
  | TileZone.NONE => none

/-- Host move_resize_frame: set the frame rectangle of the window with the
given id. -/
def setFrame (windows : List Win) (winId : Nat) (r : Rect) : List Win :=
  windows.map (fun w => if w.id == winId then { w with frame := r } else w)

/-- Host move_frame: set only the position of the window with the given id. -/
def setFramePos (windows : List Win) (winId : Nat) (x y : ℚ) : List Win :=
  windows.map (fun w =>
    if w.id == winId then { w with frame := ⟨x, y, w.frame.width, w.frame.height⟩ } else w)

/-- Host unmaximize: clear both maximization flags of the window. -/
def unmaximizeWin (windows : List Win) (winId : Nat) : List Win :=
  windows.map (fun w =>
    if w.id == winId then { w with maximizedH := false, maximizedV := false } else w)

/-- EdgeTilingManager.findWindowById over the modelled window list. -/
def findWindowById (windows : List Win) (winId : Nat) : Option Win :=
  windows.find? (fun w => w.id == winId)

/-- EdgeTilingManager.findWindowInZone: first workspace window whose saved
state occupies the given zone. -/
def findWindowInZone (et : ETState) (zone : TileZone) : Option Win :=
  et.windows.find? (fun w =>
    match lookupState et.states w.id with
    | some st => st.zone == zone
    | none => false)

/-- Zone update of a saved window state, mirroring the in-place zone
assignments of the source (a no-op when no state exists, as in JS where the
state object reference is null-checked first). -/
def setZone (states : List (Nat × WState)) (winId : Nat) (z : TileZone) :
    List (Nat × WState) :=
  states.map (fun p => if p.1 == winId then (p.1, { p.2 with zone := z }) else p)

/-- EdgeTilingManager.registerAutoTileDependency: record dependent → master
(also the Map.set performed by the deferred auto-snap callback of
handleMosaicOverflow). -/
def registerAutoTileDependency (et : ETState) (dependentId masterId : Nat) : ETState :=
  { et with deps := mapSet et.deps dependentId masterId }

/-- EdgeTilingManager.getEdgeTiledWindows: the tiled windows of the
monitor with their zones. -/
def getEdgeTiledWindows (et : ETState) (monitor : Nat) : List (Win × TileZone) :=
  (et.windows.filter (fun w =>
    w.monitor == monitor && !w.skipTaskbar && w.winType == metaWindowTypeNormal)).filterMap
    (fun w =>
      match lookupState et.states w.id with
      | some st => if st.zone != TileZone.NONE then some (w, st.zone) else none
      | none => none)

/-- EdgeTilingManager.getNonEdgeTiledWindows: the mosaic-managed windows of
the monitor. -/
def getNonEdgeTiledWindows (et : ETState) (monitor : Nat) : List Win :=
  (et.windows.filter (fun w =>
    w.monitor == monitor && !w.skipTaskbar && w.winType == metaWindowTypeNormal)).filter
    (fun w =>
      match lookupState et.states w.id with
      | some st => st.zone == TileZone.NONE
      | none => true)

/-- EdgeTilingManager.calculateRemainingSpace: work-area rectangle left to
the mosaic after the edge-tiled occupancy of the monitor. -/
def calculateRemainingSpace (et : ETState) (workArea : Rect) (monitor : Nat) : Rect :=
  let edgeTiledWindows := getEdgeTiledWindows et monitor
  if edgeTiledWindows.length == 0 then workArea
  else
    let hasLeftFull := edgeTiledWindows.any (fun w => w.2 == TileZone.LEFT_FULL)
    let hasLeftQuarters := edgeTiledWindows.any (fun w =>
      w.2 == TileZone.TOP_LEFT || w.2 == TileZone.BOTTOM_LEFT)
    let hasRightFull := edgeTiledWindows.any (fun w => w.2 == TileZone.RIGHT_FULL)
    let hasRightQuarters := edgeTiledWindows.any (fun w =>
      w.2 == TileZone.TOP_RIGHT || w.2 == TileZone.BOTTOM_RIGHT)
    let halfWidth : ℚ := (⌊workArea.width / 2⌋ : ℤ)
    if hasLeftFull || hasLeftQuarters then
      ⟨workArea.x + halfWidth, workArea.y, workArea.width - halfWidth, workArea.height⟩
    else if hasRightFull || hasRightQuarters then
      ⟨workArea.x, workArea.y, halfWidth, workArea.height⟩
    else workArea

mutual

/-- EdgeTilingManager.removeTile, with explicit fuel for the recursive
release of dependent auto-tiles (the source recursion terminates only
because reachable dependency graphs are acyclic; the fuel makes the
recursion structural).  The cursor pair is the host pointer position read
by global.get_pointer; the callback parameter of the source is the caller
re-pack and is out of scope here. -/
def removeTileFuel : Nat → ETState → Rect → Nat → ℚ × ℚ → ETState
  | 0, et, _, _, _ => et
  | Nat.succ fuel, et, workArea, winId, cursor =>
    match lookupState et.states winId with
    | none => et
    | some savedState =>
      if savedState.zone == TileZone.NONE then et
      else
        let et1 : ETState :=
          { et with resizeListeners := et.resizeListeners.filter (fun x => x != winId) }
        let savedWidth := savedState.width
        let savedHeight := savedState.height
        let et2 := releaseDependents fuel et1 workArea winId cursor
        -- The source branches on the live savedState object, whose zone the
        -- recursive releases may have rewritten; re-read it.
        let zoneNow := zoneOf et2.states winId
        let et3 :=
          if isQuarterZone zoneNow then
            match getAdjacentQuarterZone zoneNow with
            | none => et2
            | some adjacentZone =>
              match findWindowInZone et2 adjacentZone with
              | none => et2
              | some adjacentWindow =>
                let fullZone := getFullZoneFromQuarter zoneNow
                match getZoneRect et2 fullZone workArea (some adjacentWindow) with
                | none => et2
                | some fullRect =>
                  { et2 with
                    windows := setFrame et2.windows adjacentWindow.id fullRect,
                    states := setZone et2.states adjacentWindow.id fullZone }
          else et2
        let et4 := { et3 with states := setZone et3.states winId TileZone.NONE }
        let et5 :=
          match findWindowById et4.windows winId with
          | some w =>
            if w.maximizedH || w.maximizedV then
              { et4 with windows := unmaximizeWin et4.windows winId }
            else et4
          | none => et4
        let restoredX := cursor.1 - savedWidth / 2
        let restoredY := cursor.2 - 20
        { et5 with
          windows := setFrame et5.windows winId
            ⟨restoredX, restoredY, savedWidth, savedHeight⟩ }

/-- The dependency-release loop of removeTile: repeatedly take the first
remaining dependency entry whose master is the removed window, untile the
dependent window and delete the entry.  This matches the live Map.forEach
of the source, which skips entries already deleted by the inner
recursion. -/
def releaseDependents : Nat → ETState → Rect → Nat → ℚ × ℚ → ETState
  | 0, et, _, _, _ => et
  | Nat.succ fuel, et, workArea, masterId, cursor =>
    match et.deps.find? (fun p => p.2 == masterId) with
    | none => et
    | some entry =>
      let et1 :=
        match findWindowById et.windows entry.1 with
        | some dw => removeTileFuel fuel et workArea dw.id cursor
        | none => et
      let et2 := { et1 with deps := mapDelete et1.deps entry.1 }
      releaseDependents fuel et2 workArea masterId cursor

end

/-- EdgeTilingManager.removeTile at the default fuel, which covers every
dependency graph whose release chains are shorter than the map itself. -/
def removeTile (et : ETState) (workArea : Rect) (winId : Nat) (cursor : ℚ × ℚ) : ETState :=
  removeTileFuel (2 * et.deps.length + 2) et workArea winId cursor

/-- EdgeTilingManager.checkQuarterExpansion: promote a lone surviving
quarter on either side to the FULL zone of that side. -/
def checkQuarterExpansion (et : ETState) (workArea : Rect) (monitor : Nat) : ETState :=
  let edgeTiledWindows := getEdgeTiledWindows et monitor
  if edgeTiledWindows.length == 0 then et
  else
    let leftQuarters := edgeTiledWindows.filter (fun w =>
      w.2 == TileZone.TOP_LEFT || w.2 == TileZone.BOTTOM_LEFT)
    let et1 :=
      if leftQuarters.length == 1 then
        match leftQuarters.head? with
        | none => et
        | some lw =>
          let et' := { et with states := setZone et.states lw.1.id TileZone.LEFT_FULL }
          match getZoneRect et' TileZone.LEFT_FULL workArea (some lw.1) with
          | none => et'
          | some rect => { et' with windows := setFrame et'.windows lw.1.id rect }
      else et
    let rightQuarters := edgeTiledWindows.filter (fun w =>
      w.2 == TileZone.TOP_RIGHT || w.2 == TileZone.BOTTOM_RIGHT)
    if rightQuarters.length == 1 then
      match rightQuarters.head? with
      | none => et1
      | some rw =>
        let et' := { et1 with states := setZone et1.states rw.1.id TileZone.RIGHT_FULL }
        match getZoneRect et' TileZone.RIGHT_FULL workArea (some rw.1) with
        | none => et'
        | some rect => { et' with windows := setFrame et'.windows rw.1.id rect }
    else et1

/-- WindowDescriptor of part_004: snapshot of a window frame used as packer
input and swap key. -/
structure WindowDescriptor where
  index : Nat
  x : ℚ
  y : ℚ
  width : ℚ
  height : ℚ
  id : Nat
deriving DecidableEq, Repr

/-- The Mask record substituted for the dragged window descriptor during a
drag: it copies the geometry but carries no id and no index. -/
structure MaskRect where
  x : ℚ
  y : ℚ
  width : ℚ
  height : ℚ
deriving DecidableEq, Repr

/-- A packer input item: a window descriptor, or the mask standing in for
the dragged window (JS duck typing lets both flow through the packer). -/
inductive PItem where
  | desc : WindowDescriptor → PItem
  | mask : MaskRect → PItem
deriving DecidableEq, Repr

/-- Width of a packer item. -/
def PItem.width : PItem → ℚ
  | PItem.desc d => d.width
  | PItem.mask m => m.width

/-- Height of a packer item. -/
def PItem.height : PItem → ℚ
  | PItem.desc d => d.height
  | PItem.mask m => m.height

/-- The id field of a packer item as JS reads it: undefined on a mask. -/
def PItem.idOpt : PItem → Option Nat
  | PItem.desc d => some d.id
  | PItem.mask _ => none

/-- The index field of a packer item as JS reads it: undefined on a mask. -/
def PItem.indexOpt : PItem → Option Nat
  | PItem.desc d => some d.index
  | PItem.mask _ => none

/-- A packing row (the Level objects of part_004): accumulated width and
height plus the descriptors placed in the row.  The y field of the source
Level is never used in the horizontal mode and is omitted. -/
structure Level where
  x : ℚ
  width : ℚ
  height : ℚ
  windows : List PItem
deriving DecidableEq, Repr

/-- A fresh Level (the new Level(work_area) constructor). -/
def emptyLevel : Level := ⟨0, 0, 0, []⟩

/-- Intermediate state of the packing walk over the descriptors: completed
rows, the open row, the running totals and the overflow flag. -/
structure PackState where
  done : List Level
  cur : Level
  totalWidth : ℚ
  totalHeight : ℚ
  overflow : Bool
deriving DecidableEq, Repr

/-- Initial packing state: one empty level, zero totals, no overflow. -/
def initPackState : PackState := ⟨[], emptyLevel, 0, 0, false⟩

/-- Row-close phase of one packing step: when the next descriptor plus
spacing does not fit the open row, record the row (fixing its centering x),
advance the running height by the row height plus spacing and open a fresh
row. -/
def tileCloseIfNeeded (area : Rect) (s : PackState) (w : PItem) : PackState :=
  if s.cur.width + WINDOW_SPACING + w.width > area.width then
    { done := s.done ++ [{ s.cur with x := (area.width - s.cur.width) / 2 + area.x }],
      cur := emptyLevel,
      totalWidth := max s.cur.width s.totalWidth,
      totalHeight := s.totalHeight + s.cur.height + WINDOW_SPACING,
      overflow := s.overflow }
  else s

/-- The height-or-width skip test of the packing loop, evaluated after the
row-close phase, exactly as written in the source. -/
def tileSkipCond (area : Rect) (s : PackState) (w : PItem) : Bool :=
  max w.height s.cur.height + s.totalHeight > area.height ||
  w.width + s.cur.width > area.width

/-- One packing step: row-close phase, then either skip the descriptor with
overflow set, or place it in the open row.  The Bool reports whether the
descriptor was placed. -/
def tileStep (area : Rect) (s : PackState) (w : PItem) : PackState × Bool :=
  let s1 := tileCloseIfNeeded area s w
  if tileSkipCond area s1 w then
    ({ s1 with overflow := true }, false)
  else
    let newWidth :=
      (if s1.cur.width != 0 then s1.cur.width + WINDOW_SPACING else s1.cur.width) + w.width
    ({ s1 with cur :=
        { s1.cur with
          windows := s1.cur.windows ++ [w],
          width := newWidth,
          height := max w.height s1.cur.height } },
      true)

/-- The packing walk over all descriptors, also returning the per-descriptor
placement flags in input order. -/
def tileSteps (area : Rect) : PackState → List PItem → PackState × List Bool
  | s, [] => (s, [])
  | s, w :: ws =>
    let step := tileStep area s w
    let rest := tileSteps area step.1 ws
    (rest.1, step.2 :: rest.2)

/-- Result record of the packer (the object literal returned by tile; x is
left undefined by the horizontal branch of the source). -/
structure TileInfo where
  x : Option ℚ
  y : ℚ
  overflow : Bool
  vertical : Bool
  levels : List Level
  windows : List PItem
deriving DecidableEq, Repr

/-- TilingManager.tile (the horizontal mode; the vertical flag of the
source is the constant false, its branch is unreachable and, per the spec
design notes, deliberately left unmodelled).  The informational row
estimate of the source (window_widths, n_levels) does not influence the
result and is kept as dead bindings. -/
def tile (windows : List PItem) (workArea : Rect) : TileInfo :=
  let _totalRequiredArea := windows.foldl (fun a w => a + w.width * w.height) 0
  let _availableArea := workArea.width * workArea.height
  let _windowWidths :=
    windows.foldl (fun a w => a + w.width + WINDOW_SPACING) 0 - WINDOW_SPACING
  let vertical := false
  let final := tileSteps workArea initPackState windows
  let s := final.1
  let totalHeight := s.totalHeight + s.cur.height
  let lastLevel : Level := { s.cur with x := (workArea.width - s.cur.width) / 2 + workArea.x }
  let levels := s.done ++ [lastLevel]
  let y := (workArea.height - totalHeight) / 2 + workArea.y
  { x := none,
    y := y,
    overflow := s.overflow,
    vertical := vertical,
    levels := levels,
    windows := levels.foldl (fun acc l => acc ++ l.windows) [] }

set_option maxRecDepth 8000

/-- Whole-engine state: the edge tiling state, the per-workspace committed
swap list, the provisional swap, the drag state of TilingManager, the work
area of the modelled workspace/monitor, the host cursor, the id the
animation collaborator is currently resizing, and the ids the windowing
collaborator has moved to a new workspace. -/
structure World where
  et : ETState
  swaps : List (List Nat)
  tmp_swap : List Nat
  masks : List Nat
  isDragging : Bool
  dragRemainingSpace : Option Rect
  workArea : Rect
  cursor : ℚ × ℚ
  resizingWindowId : Option Nat
  movedToNew : List Nat
deriving DecidableEq, Repr

/-- Modelled from the spec: windowing.isMaximizedOrFullscreen.  The
windowing collaborator module (windowing.js) is not among the staged
sources; spec section 6 specifies a query for whether a window is
maximized or fullscreen. -/
def isMaximizedOrFullscreen (w : Win) : Bool :=
  (w.maximizedH || w.maximizedV) || w.fullscreen

/-- Modelled from the spec: windowing.isExcluded, the blacklist / window
type check of the windowing collaborator, abstracted as a per-window
flag. -/
def isExcluded (w : Win) : Bool := w.excluded

/-- Modelled from the spec: windowing.getMonitorWorkspaceWindows, the
enumeration of the windows of the workspace on a monitor (spec section
6). -/
def getMonitorWorkspaceWindows (world : World) (monitor : Nat) : List Win :=
  world.et.windows.filter (fun w => w.monitor == monitor)

/-- Modelled from the spec: windowing.moveOversizedWindow, migration of a
window to a newly created workspace (spec sections 4.2/4.3); the window
leaves the modelled workspace. -/
def moveOversizedWindow (world : World) (winId : Nat) : World :=
  { world with
    et := { world.et with windows := world.et.windows.filter (fun w => w.id != winId) },
    movedToNew := world.movedToNew ++ [winId] }

/-- TilingManager.setTmpSwap: record the provisional reorder pair unless it
is degenerate or the exact reverse of the stored pair. -/
def setTmpSwap (world : World) (id1 id2 : Nat) : World :=
  if id1 == id2 ||
      (world.tmp_swap.get? 0 == some id2 && world.tmp_swap.get? 1 == some id1) then
    world
  else
    { world with tmp_swap := [id1, id2] }

/-- TilingManager.clearTmpSwap. -/
def clearTmpSwap (world : World) : World := { world with tmp_swap := [] }

/-- TilingManager.applyTmpSwap: commit the provisional pair to the
workspace swap list. -/
def applyTmpSwap (world : World) : World :=
  if world.tmp_swap.length != 0 then
    { world with swaps := world.swaps ++ [world.tmp_swap] }
  else world

/-- Exchange the elements at two positions of a list (the three-assignment
swap of the source). -/
def listSwap (l : List α) (i j : Nat) : List α :=
  match l.get? i, l.get? j with
  | some a, some b => (l.set i b).set j a
  | _, _ => l

/-- JS Array.findIndex over descriptors by id; the probe id is optional
because the source may read it out of a malformed swap entry (undefined
matches no descriptor). -/
def findIndexById (array : List WindowDescriptor) (targetId : Option Nat) : Option Nat :=
  array.findIdx? (fun w => some w.id == targetId)

/-- TilingManager.swapElements: exchange the positions of the two
id-matched entries; a no-op when either id has no match. -/
def swapElements (array : List WindowDescriptor) (id1 id2 : Option Nat) :
    List WindowDescriptor :=
  match findIndexById array id1, findIndexById array id2 with
  | some index1, some index2 => listSwap array index1 index2
  | _, _ => array

/-- TilingManager.applySwaps: replay the committed swap list, in order,
over the descriptor array. -/
def applySwaps (world : World) (array : List WindowDescriptor) : List WindowDescriptor :=
  world.swaps.foldl (fun arr s => swapElements arr (s.get? 0) (s.get? 1)) array

/-- TilingManager.applyTmp: apply the provisional pair, if any, to the
descriptor array. -/
def applyTmp (world : World) (array : List WindowDescriptor) : List WindowDescriptor :=
  if world.tmp_swap.length != 0 then
    swapElements array (world.tmp_swap.get? 0) (world.tmp_swap.get? 1)
  else array

/-- TilingManager.createDescriptor: descriptor for a window at its input
position; the reference window bypasses the exclusion and maximization
checks, every other window must be managed, on the monitor and not
maximized. -/
def createDescriptor (w : Win) (monitor : Nat) (index : Nat) (reference : Option Win) :
    Option WindowDescriptor :=
  let descriptor : WindowDescriptor :=
    ⟨index, w.frame.x, w.frame.y, w.frame.width, w.frame.height, w.id⟩
  let isRef := match reference with
    | some r => w.id == r.id
    | none => false
  if isRef then some descriptor
  else if isExcluded w || w.monitor != monitor || isMaximizedOrFullscreen w then none
  else some descriptor

/-- TilingManager.windowsToDescriptors. -/
def windowsToDescriptors (ws : List Win) (monitor : Nat) (reference : Option Win) :
    List WindowDescriptor :=
  ws.enum.filterMap (fun p => createDescriptor p.2 monitor p.1 reference)

/-- TilingManager.getMask: substitute the mask record for a masked
descriptor. -/
def getMask (world : World) (d : WindowDescriptor) : PItem :=
  if world.masks.contains d.id then PItem.mask ⟨d.x, d.y, d.width, d.height⟩
  else PItem.desc d

/-- Result of TilingManager.getWorkingInfo. -/
structure WorkingInfo where
  monitor : Nat
  metaWindows : List Win
  windows : List PItem
  workArea : Rect
deriving DecidableEq, Repr

/-- TilingManager.getWorkingInfo: gather the monitor windows (minus the
overflow or drag exclusions), refuse when any of them is maximized or
fullscreen, build descriptors for the mosaic set (or all windows when no
edge tile exists), replay the committed and provisional swaps and apply
the drag masks.  The monitor argument of the modelled calls is always
supplied, and the work area of the modelled workspace always exists. -/
def getWorkingInfo (world : World) (window : Option Win) (monitor : Nat)
    (excludeFromTiling : Bool) : Option WorkingInfo :=
  let metaWindows0 := getMonitorWorkspaceWindows world monitor
  let metaWindows1 :=
    match window with
    | some w =>
      if excludeFromTiling && !world.isDragging then
        metaWindows0.filter (fun x => x.id != w.id)
      else metaWindows0
    | none => metaWindows0
  let metaWindows :=
    match window with
    | some w =>
      if world.isDragging && world.dragRemainingSpace.isSome then
        metaWindows1.filter (fun x => x.id != w.id)
      else metaWindows1
    | none => metaWindows1
  let edgeTiledWindows := getEdgeTiledWindows world.et monitor
  let edgeTiledIds := edgeTiledWindows.map (fun p => p.1.id)
  let nonEdgeTiledMetaWindows := metaWindows.filter (fun w => !edgeTiledIds.contains w.id)
  let windowsForSwaps :=
    if edgeTiledWindows.length > 0 then nonEdgeTiledMetaWindows else metaWindows
  if metaWindows.any isMaximizedOrFullscreen then none
  else
    let descriptors0 := windowsToDescriptors windowsForSwaps monitor window
    let descriptors1 := applySwaps world descriptors0
    let descriptors2 := applyTmp world descriptors1
    let items := descriptors2.map (getMask world)
    some ⟨monitor, metaWindows, items, world.workArea⟩

/-- TilingManager.canFitWindow: the dry-run fit test. -/
def canFitWindow (world : World) (window : Win) (monitor : Nat) : Bool :=
  if window.fullscreen then true
  else
    match getWorkingInfo world (some window) monitor false with
    | none => false
    | some wi =>
      if wi.metaWindows.any isMaximizedOrFullscreen then false
      else
        let edgeTiledWindows := getEdgeTiledWindows world.et monitor
        let availableSpaceOpt : Option Rect :=
          if edgeTiledWindows.length > 0 then
            let otherEdgeTiles := edgeTiledWindows.filter (fun p => p.1.id != window.id)
            let zones := otherEdgeTiles.map (fun p => p.2)
            let hasLeftFull := zones.contains TileZone.LEFT_FULL
            let hasRightFull := zones.contains TileZone.RIGHT_FULL
            let hasLeftQuarters := zones.any (fun z =>
              z == TileZone.TOP_LEFT || z == TileZone.BOTTOM_LEFT)
            let hasRightQuarters := zones.any (fun z =>
              z == TileZone.TOP_RIGHT || z == TileZone.BOTTOM_RIGHT)
            if (hasLeftFull || hasLeftQuarters) && (hasRightFull || hasRightQuarters) then
              none
            else some (calculateRemainingSpace world.et world.workArea monitor)
          else some wi.workArea
        match availableSpaceOpt with
        | none => false
        | some availableSpace =>
          let edgeTiledIds := edgeTiledWindows.map (fun p => p.1.id)
          let windows0 := wi.windows.filter (fun it =>
            !(match it.idOpt with
              | some i => edgeTiledIds.contains i
              | none => false))
          let newWindowId := window.id
          let windowAlreadyInWorkspace := windows0.any (fun it => it.idOpt == some newWindowId)
          let windows1 :=
            if !windowAlreadyInWorkspace then
              windows0 ++ [PItem.desc
                ⟨windows0.length, window.frame.x, window.frame.y, 200, 200, window.id⟩]
            else windows0
          let tileResult := tile windows1 availableSpace
          !tileResult.overflow

/-- Per-window target rectangles of a packed layout: the x/y/y-offset walk
shared by drawTile / Level.draw_horizontal and animateTileLayout, whose
position formulas are identical in the source. -/
def layoutTargets (ti : TileInfo) (workArea : Rect) : List (Option Nat × Rect) :=
  (ti.levels.foldl (fun (p : ℚ × List (Option Nat × Rect)) l =>
    let inner := l.windows.foldl (fun (q : ℚ × List (Option Nat × Rect)) wd =>
      let centerOffset := (workArea.height / 2 + workArea.y) - (p.1 + wd.height / 2)
      let yOffset := if centerOffset > 0 then min centerOffset (l.height - wd.height) else 0
      (q.1 + wd.width + WINDOW_SPACING,
        q.2 ++ [(wd.idOpt, ⟨q.1, p.1 + yOffset, wd.width, wd.height⟩)])) (l.x, p.2)
    (p.1 + l.height + WINDOW_SPACING, inner.2)) (ti.y, [])).2

/-- Realization of the layout by the animation collaborator
(animateTileLayout / animateReTiling): each found window eventually takes
its target rectangle, except the one being interactively resized, which is
only repositioned.  Windows without an id (masks) are skipped, as the
find-by-id of the source fails for them. -/
def applyTargetsAnimate (world : World) (metaWindows : List Win)
    (targets : List (Option Nat × Rect)) : World :=
  targets.foldl (fun acc t =>
    match t.1 with
    | none => acc
    | some wid =>
      match findWindowById metaWindows wid with
      | none => acc
      | some _ =>
        if world.resizingWindowId == some wid then
          { acc with et := { acc.et with
              windows := setFramePos acc.et.windows wid t.2.x t.2.y } }
        else
          { acc with et := { acc.et with
              windows := setFrame acc.et.windows wid t.2 } }) world

/-- Realization of the layout by drawTile (WindowDescriptor.draw): each
found window is moved to its target position; move_frame changes the
position only. -/
def applyTargetsDraw (world : World) (metaWindows : List Win)
    (targets : List (Option Nat × Rect)) : World :=
  targets.foldl (fun acc t =>
    match t.1 with
    | none => acc
    | some wid =>
      match findWindowById metaWindows wid with
      | none => acc
      | some _ =>
        { acc with et := { acc.et with
            windows := setFramePos acc.et.windows wid t.2.x t.2.y } }) world

/-- The eviction scan of tileWorkspaceWindows: walk the packed items in
order and return the position of the first one whose index field points at
the reference window in the meta window list.  Returns none overall when
the scan reads an undefined index (a mask) or an out-of-bounds index, in
which case the get_id() call of the source throws a TypeError; some none
when the loop runs off the end without a match. -/
def evictIndex : List PItem → List Win → Nat → Option (Option Nat)
  | [], _, _ => some none
  | it :: rest, metaWindows, refId =>
    match it.indexOpt with
    | none => none
    | some idx =>
      match metaWindows.get? idx with
      | none => none
      | some mw =>
        if mw.id == refId then some (some 0)
        else (evictIndex rest metaWindows refId).map (fun r => r.map (fun n => n + 1))

/-- The packing-and-realization tail of tileWorkspaceWindows, shared by
the no-edge-tile path and the single-side edge-tile path.  Returns none on
the TypeError of the eviction scan, otherwise the overflow flag returned
to the caller and the updated world. -/
def tileWSCore (world : World) (referenceWindow : Option Win) (monitor : Nat)
    (keepOversized : Bool) (metaWindows : List Win) (windows : List PItem)
    (workArea : Rect) : Option (Option Bool × World) :=
  let tileArea :=
    if world.isDragging && world.dragRemainingSpace.isSome then
      world.dragRemainingSpace.getD workArea
    else workArea
  let tileInfo0 := tile windows tileArea
  let workspaceWindows := getMonitorWorkspaceWindows world monitor
  let overflow0 :=
    if workspaceWindows.length ≤ 1 then false
    else tileInfo0.overflow || workspaceWindows.any isMaximizedOrFullscreen
  let evicted : Option (List PItem × TileInfo × World) :=
    match referenceWindow with
    | some ref =>
      if overflow0 && !keepOversized then
        match evictIndex windows metaWindows ref.id with
        | none => none
        | some (some i) =>
          let spliced := windows.eraseIdx i
          some (spliced, tile spliced tileArea, moveOversizedWindow world ref.id)
        | some none =>
          some (windows, tile windows tileArea, moveOversizedWindow world ref.id)
      else some (windows, tileInfo0, world)
    | none => some (windows, tileInfo0, world)
  match evicted with
  | none => none
  | some (windows1, tileInfo1, world1) =>
    let targets := layoutTargets tileInfo1 tileArea
    let world2 :=
      if !world1.isDragging && tileInfo1.levels.length > 0 then
        applyTargetsAnimate world1 metaWindows targets
      else if world1.isDragging && windows1.length == 0 && referenceWindow.isSome then
        world1
      else
        applyTargetsDraw world1 metaWindows targets
    some (some overflow0, world2)

/-- TilingManager.tileWorkspaceWindows: the per-workspace orchestrator
pass.  Returns none on the TypeError path of the eviction scan; some
(none, world) models the undefined early returns of the source; some
(some b, world) the overflow flag handed to the caller. -/
def tileWorkspaceWindows (world : World) (referenceWindow : Option Win) (monitor : Nat)
    (keepOversized : Bool) (excludeFromTiling : Bool) : Option (Option Bool × World) :=
  match getWorkingInfo world referenceWindow monitor excludeFromTiling with
  | none => some (none, world)
  | some wi =>
    let metaWindows := wi.metaWindows
    let windows := wi.windows
    let workArea := wi.workArea
    let edgeTiledWindows := getEdgeTiledWindows world.et monitor
    if edgeTiledWindows.length > 0 then
      let zones := edgeTiledWindows.map (fun p => p.2)
      let hasLeftFull := zones.contains TileZone.LEFT_FULL
      let hasRightFull := zones.contains TileZone.RIGHT_FULL
      let hasLeftQuarters := zones.any (fun z =>
        z == TileZone.TOP_LEFT || z == TileZone.BOTTOM_LEFT)
      let hasRightQuarters := zones.any (fun z =>
        z == TileZone.TOP_RIGHT || z == TileZone.BOTTOM_RIGHT)
      if (hasLeftFull || hasLeftQuarters) && (hasRightFull || hasRightQuarters) then
        let nonEdgeTiledMeta := getNonEdgeTiledWindows world.et monitor
        let world1 := nonEdgeTiledMeta.foldl (fun acc w =>
          if !(isExcluded w) then moveOversizedWindow acc w.id else acc) world
        some (none, world1)
      else
        let remainingSpace := calculateRemainingSpace world.et world.workArea monitor
        let edgeTiledIds := edgeTiledWindows.map (fun p => p.1.id)
        match world.dragRemainingSpace with
        | some drs =>
          tileWSCore world referenceWindow monitor keepOversized metaWindows windows drs
        | none =>
          let metaWindows1 := metaWindows.filter (fun w => !edgeTiledIds.contains w.id)
          if metaWindows1.length == 0 then some (none, world)
          else
            tileWSCore world referenceWindow monitor keepOversized metaWindows1 windows
              remainingSpace
    else
      tileWSCore world referenceWindow monitor keepOversized metaWindows windows workArea

/-- Squared distance from the cursor to the center of a descriptor frame
(ReorderingManager.cursorDistance applies Math.sqrt, which is monotone, so
comparing squared distances selects the same minimum). -/
def cursorDistSq (cursor : ℚ × ℚ) (frame : WindowDescriptor) : ℚ :=
  let dx := cursor.1 - (frame.x + frame.width / 2)
  let dy := cursor.2 - (frame.y + frame.height / 2)
  dx * dx + dy * dy

/-- The minimum-distance scan of the drag loop: id of the reorderable
descriptor nearest the cursor (first wins on ties; none when the list is
empty, the Infinity initialization of the source). -/
def nearestReorderable (cursor : ℚ × ℚ) (ws : List WindowDescriptor) : Option Nat :=
  (ws.foldl (fun acc w =>
    let d := cursorDistSq cursor w
    match acc with
    | none => some (d, w.id)
    | some md => if d < md.1 then some (d, w.id) else some md) none).map (fun p => p.2)

/-- One repack invocation of the drag loop, recording the provisional swap
in effect when it was issued and the overflow flag it returned. -/
structure RepackCall where
  tmpAtCall : List Nat
  result : Option Bool
deriving DecidableEq, Repr

/-- The repack phase of one drag tick: repack with the provisional swap in
effect, and when that reports overflow, cancel the provisional swap and
repack once more; the trace records each repack with the provisional swap
it saw.  A none result models the tick dying on a repack TypeError. -/
def dragTickRepacks (world1 : World) (monitor : Nat) (windowToExclude : Option Win) :
    Option (World × List RepackCall) :=
  match tileWorkspaceWindows world1 windowToExclude monitor false false with
  | none => none
  | some r1 =>
    let call1 : RepackCall := ⟨world1.tmp_swap, r1.1⟩
    if r1.1 == some true then
      let world3 := clearTmpSwap r1.2
      match tileWorkspaceWindows world3 windowToExclude monitor false false with
      | none => none
      | some r2 =>
        some (r2.2, [call1, ⟨world3.tmp_swap, r2.1⟩])
    else
      some (r1.2, [call1])

/-- The provisional-swap update of one drag tick: clear when there is no
target or the target is the dragged window itself, else install the
pair. -/
def dragSwapUpdate (world : World) (id : Nat) (targetId : Option Nat) : World :=
  match targetId with
  | none => clearTmpSwap world
  | some t => if t == id then clearTmpSwap world else setTmpSwap world id t

/-- ReorderingManager.drag: one tick of the drag loop (the GLib reschedule
of the next tick is outside the model).  Given the dragged window, its id
and the descriptor snapshots taken at startDrag, the tick selects the
nearest reorderable window, installs or clears the provisional swap,
repacks, and on an overflowing repack cancels the provisional swap and
repacks once more.  Returns none when a repack throws (TypeError of the
eviction scan), otherwise the final world and the trace of repack
invocations. -/
def dragTick (world : World) (metaWindow : Win) (id : Nat)
    (windows : List WindowDescriptor) : Option (World × List RepackCall) :=
  let cursor := world.cursor
  let workArea := world.workArea
  let monitor := metaWindow.monitor
  let edgeTiledWindows := getEdgeTiledWindows world.et monitor
  let edgeTiledIds := edgeTiledWindows.map (fun p => p.1.id)
  let reorderableWindows := windows.filter (fun w => !edgeTiledIds.contains w.id)
  if edgeTiledIds.contains id then some (world, [])
  else
    let targetId := nearestReorderable cursor reorderableWindows
    let world1 := dragSwapUpdate world id targetId
    let zone := detectZone world1.et cursor.1 cursor.2 workArea
    let isOverEdgeZone := zone != TileZone.NONE
    let windowToExclude := if isOverEdgeZone then some metaWindow else none
    dragTickRepacks world1 monitor windowToExclude

/-- The skip condition as the spec states it: placing the descriptor would
make the running total height exceed the area height, or its width alone
exceeds the area width (evaluated in the state left by the row-close
phase). -/
def specSkipCond (area : Rect) (s : PackState) (w : PItem) : Prop :=
  s.totalHeight + max w.height s.cur.height > area.height ∨ w.width > area.width

/-- Decidability of the spec skip condition. -/
instance (area : Rect) (s : PackState) (w : PItem) : Decidable (specSkipCond area s w) :=
  inferInstanceAs (Decidable (_ ∨ _))

/-- Windows currently occupying a quarter zone of the given side (true
selects left). -/
def sideQuarterWindows (et : ETState) (left : Bool) : List Win :=
  et.windows.filter (fun w =>
    let z := zoneOf et.states w.id
    if left then z == TileZone.TOP_LEFT || z == TileZone.BOTTOM_LEFT
    else z == TileZone.TOP_RIGHT || z == TileZone.BOTTOM_RIGHT)

/-- The window ids of the modelled workspace are distinct. -/
def idsNodup (et : ETState) : Prop :=
  (et.windows.map (fun w => w.id)).Nodup

/-- Zone exclusivity, the section 3 invariant of the spec: no two distinct
windows occupy the same non-NONE zone. -/
def zoneExclusive (et : ETState) : Prop :=
  ∀ w1 ∈ et.windows, ∀ w2 ∈ et.windows, w1.id ≠ w2.id →
    zoneOf et.states w1.id ≠ TileZone.NONE →
    zoneOf et.states w1.id ≠ zoneOf et.states w2.id

/-- A plain visible normal unmaximized window for concrete scenarios. -/
def plainWin (id : Nat) (frame : Rect) : Win :=
  ⟨id, frame, 0, false, false, metaWindowTypeNormal, false, false, false, false, false⟩

/-- Saved state occupying a zone, with the given pre-tiling geometry. -/
def tiledState (r : Rect) (z : TileZone) : WState := ⟨r.x, r.y, r.width, r.height, z⟩

/-- A world with the given edge tiling state and work area, at rest: no
swaps, no provisional swap, no masks, no drag. -/
def mkWorld (et : ETState) (workArea : Rect) : World :=
  ⟨et, [], [], [], false, none, workArea, (0, 0), none, []⟩

/-- Number of descriptors placed in the rows of a packing state. -/
def placedCount (s : PackState) : Nat :=
  (s.done.map (fun l => l.windows.length)).sum + s.cur.windows.length

/-- Both a left-side and a right-side edge zone are occupied by windows
other than the candidate (the fully-occupied test of canFitWindow). -/
def bothSidesOccupiedByOthers (world : World) (w : Win) (monitor : Nat) : Bool :=
  let otherEdgeTiles := (getEdgeTiledWindows world.et monitor).filter
    (fun p => p.1.id != w.id)
  let zones := otherEdgeTiles.map (fun p => p.2)
  ((zones.contains TileZone.LEFT_FULL ||
      zones.any (fun z => z == TileZone.TOP_LEFT || z == TileZone.BOTTOM_LEFT)) &&
    (zones.contains TileZone.RIGHT_FULL ||
      zones.any (fun z => z == TileZone.TOP_RIGHT || z == TileZone.BOTTOM_RIGHT)))

/-- The windowsForSwaps selection of getWorkingInfo for the undisturbed
(no exclusion) window list: the mosaic windows when edge tiles exist, else
all monitor windows. -/
def windowsForSwapsOf (world : World) (monitor : Nat) : List Win :=
  let metaWindows := getMonitorWorkspaceWindows world monitor
  let edgeTiledIds := (getEdgeTiledWindows world.et monitor).map (fun p => p.1.id)
  if (getEdgeTiledWindows world.et monitor).length > 0 then
    metaWindows.filter (fun x => !edgeTiledIds.contains x.id)
  else metaWindows

/-- The packing area canFitWindow tests against: the remaining space when
edge tiles exist, else the work area. -/
def canFitSpace (world : World) (monitor : Nat) : Rect :=
  if (getEdgeTiledWindows world.et monitor).length > 0 then
    calculateRemainingSpace world.et world.workArea monitor
  else world.workArea

/-- The descriptor list canFitWindow packs: the current mosaic items with
a descriptor for the candidate appended — its current geometry if already
present, else a 200 x 200 placeholder. -/
def canFitInput (world : World) (w : Win) (monitor : Nat) : List PItem :=
  match getWorkingInfo world (some w) monitor false with
  | none => []
  | some wi =>
    let edgeTiledIds := (getEdgeTiledWindows world.et monitor).map (fun p => p.1.id)
    let windows0 := wi.windows.filter (fun it =>
      !(match it.idOpt with
        | some i => edgeTiledIds.contains i
        | none => false))
    if !(windows0.any (fun it => it.idOpt == some w.id)) then
      windows0 ++ [PItem.desc ⟨windows0.length, w.frame.x, w.frame.y, 200, 200, w.id⟩]
    else windows0

/-- Concrete dependency scenario: the master tiled LEFT_FULL, its auto-tile
dependent snapped RIGHT_FULL, one dependency edge 2 → 1. -/
def c7Win1 : Win := ⟨1, ⟨0, 0, 500, 600⟩, 0, false, false, 0, false, false, false, false, false⟩

/-- The dependent window of the concrete dependency scenario. -/
def c7Win2 : Win := ⟨2, ⟨500, 0, 500, 600⟩, 0, false, false, 0, false, false, false, false, false⟩

/-- Saved state of the master in the concrete dependency scenario. -/
def c7Mst : WState := ⟨0, 0, 500, 600, TileZone.LEFT_FULL⟩

/-- Saved state of the dependent in the concrete dependency scenario. -/
def c7Dst : WState := ⟨500, 0, 500, 600, TileZone.RIGHT_FULL⟩

/-- Edge-tiling state of the concrete dependency scenario. -/
def c7Et : ETState := ⟨[c7Win1, c7Win2], [(1, c7Mst), (2, c7Dst)], [(2, 1)], []⟩

/-- Concrete promotion scenario: two left-side quarters, window 1 on top and
window 2 on the bottom, no dependencies. -/
def c5Et : ETState :=
  ⟨[plainWin 1 ⟨0, 0, 500, 300⟩, plainWin 2 ⟨0, 300, 500, 300⟩],
   [(1, tiledState ⟨0, 0, 500, 300⟩ TileZone.TOP_LEFT),
    (2, tiledState ⟨0, 300, 500, 300⟩ TileZone.BOTTOM_LEFT)], [], []⟩

/-!  Theorems about the embedded engine, one per claim of the
specification review, with witnesses for the hypothesised ones. -/

/-- C1, counterexample: with work area {0,0,1000,600} and no window in any
opposite-side zone, getZoneRect(LEFT_FULL) does not return the full
work-area rectangle claimed by the spec scenario. -/
theorem getZoneRect_leftFull_noComplement_not_full :
    getZoneRect ⟨[plainWin 1 ⟨0, 0, 1000, 600⟩], [], [], []⟩ TileZone.LEFT_FULL
      ⟨0, 0, 1000, 600⟩ (some (plainWin 1 ⟨0, 0, 1000, 600⟩)) ≠
      some ⟨0, 0, 1000, 600⟩ := by
  decide

/-- C1, amended: with work area {0,0,1000,600} and no window in any
opposite-side zone, getZoneRect(LEFT_FULL) returns the left half
{x:0, y:0, width:500, height:600} — the default 50 percent split
(halfWidth = floor(width/2)), not the full work area. -/
theorem getZoneRect_leftFull_noComplement_half :
    getZoneRect ⟨[plainWin 1 ⟨0, 0, 1000, 600⟩], [], [], []⟩ TileZone.LEFT_FULL
      ⟨0, 0, 1000, 600⟩ (some (plainWin 1 ⟨0, 0, 1000, 600⟩)) =
      some ⟨0, 0, 500, 600⟩ := by
  decide

/-- C4: when the opposite full zone is occupied with a nonzero width w,
getZoneRect(RIGHT_FULL) places the window at x + w with the complement
width, so the two rectangles exactly tile the work-area width; with the
work area {0,0,1000,600} and a LEFT_FULL occupant of width 600 this gives
{x:600, y:0, width:400, height:600} (see the witness). -/
theorem getZoneRect_rightFull_complement (et : ETState) (wa : Rect) (win : Win) (w : ℚ)
    (hw : oppositeFullWidth et TileZone.RIGHT_FULL win = some w) (hw0 : w ≠ 0) :
    getZoneRect et TileZone.RIGHT_FULL wa (some win) =
      some ⟨wa.x + w, wa.y, wa.width - w, wa.height⟩ ∧
    (wa.width - w) + w = wa.width := by
  constructor
  · simp only [getZoneRect, Option.some_bind, optTruthy, optVal]
    rw [hw]
    simp [hw0]
  · ring

/-- C4, witness: the spec scenario (LEFT_FULL occupant of width 600 in the
work area {0,0,1000,600}) discharges the hypotheses and yields the rect
{600, 0, 400, 600}. -/
theorem getZoneRect_rightFull_complement_witness :
    oppositeFullWidth
        ⟨[plainWin 1 ⟨0, 0, 600, 600⟩, plainWin 2 ⟨50, 50, 300, 300⟩],
          [(1, tiledState ⟨0, 0, 600, 600⟩ TileZone.LEFT_FULL)], [], []⟩
        TileZone.RIGHT_FULL (plainWin 2 ⟨50, 50, 300, 300⟩) = some 600 ∧
    getZoneRect
        ⟨[plainWin 1 ⟨0, 0, 600, 600⟩, plainWin 2 ⟨50, 50, 300, 300⟩],
          [(1, tiledState ⟨0, 0, 600, 600⟩ TileZone.LEFT_FULL)], [], []⟩
        TileZone.RIGHT_FULL ⟨0, 0, 1000, 600⟩ (some (plainWin 2 ⟨50, 50, 300, 300⟩)) =
      some ⟨600, 0, 400, 600⟩ := by
  refine ⟨by decide, ?_⟩
  have h := getZoneRect_rightFull_complement
    ⟨[plainWin 1 ⟨0, 0, 600, 600⟩, plainWin 2 ⟨50, 50, 300, 300⟩],
      [(1, tiledState ⟨0, 0, 600, 600⟩ TileZone.LEFT_FULL)], [], []⟩
    ⟨0, 0, 1000, 600⟩ (plainWin 2 ⟨50, 50, 300, 300⟩) 600 (by decide) (by norm_num)
  have h1 := h.1
  rw [h1]
  norm_num

/-- C9: setTmpSwap leaves the stored provisional swap unchanged when the
two ids are equal or when the stored pair is exactly the reverse; in every
other case the stored pair becomes (id1, id2); and the store always holds
at most one pair (it is empty or a single two-element pair). -/
theorem setTmpSwap_pair_rules (world : World) (id1 id2 : Nat)
    (hshape : world.tmp_swap = [] ∨ ∃ a b, world.tmp_swap = [a, b]) :
    (id1 = id2 → (setTmpSwap world id1 id2).tmp_swap = world.tmp_swap) ∧
    (world.tmp_swap = [id2, id1] → (setTmpSwap world id1 id2).tmp_swap = world.tmp_swap) ∧
    (id1 ≠ id2 → world.tmp_swap ≠ [id2, id1] →
      (setTmpSwap world id1 id2).tmp_swap = [id1, id2]) ∧
    ((setTmpSwap world id1 id2).tmp_swap = [] ∨
      ∃ a b, (setTmpSwap world id1 id2).tmp_swap = [a, b]) := by
  by_cases h : (id1 == id2 ||
      (world.tmp_swap.get? 0 == some id2 && world.tmp_swap.get? 1 == some id1)) = true
  · simp only [setTmpSwap, h, if_true]
    refine ⟨fun _ => trivial, fun _ => trivial, ?_, hshape⟩
    intro hne hrev
    exfalso
    simp only [Bool.or_eq_true, beq_iff_eq, Bool.and_eq_true] at h
    rcases h with h | ⟨h0, h1⟩
    · exact hne h
    · rcases hshape with hnil | ⟨a, b, hab⟩
      · rw [hnil] at h0; simp at h0
      · rw [hab] at h0 h1
        simp only [List.get?] at h0 h1
        apply hrev
        rw [hab]
        simp only [Option.some_inj] at h0 h1
        rw [h0, h1]
  · simp only [setTmpSwap, h, if_false]
    refine ⟨?_, ?_, fun _ _ => rfl, Or.inr ⟨id1, id2, rfl⟩⟩
    · intro heq
      exfalso
      apply h
      simp [heq]
    · intro hrev
      exfalso
      apply h
      rw [hrev]
      simp

/-- C9, witness: concrete application with an empty store and distinct
ids: the store becomes the pair, and keeps pair shape. -/
theorem setTmpSwap_pair_rules_witness :
    ((mkWorld ⟨[], [], [], []⟩ ⟨0, 0, 1000, 600⟩).tmp_swap = [] ∨
      ∃ a b, (mkWorld ⟨[], [], [], []⟩ ⟨0, 0, 1000, 600⟩).tmp_swap = [a, b]) ∧
    (setTmpSwap (mkWorld ⟨[], [], [], []⟩ ⟨0, 0, 1000, 600⟩) 1 2).tmp_swap = [1, 2] := by
  have h := setTmpSwap_pair_rules (mkWorld ⟨[], [], [], []⟩ ⟨0, 0, 1000, 600⟩) 1 2
    (Or.inl rfl)
  exact ⟨Or.inl rfl, h.2.2.1 (by decide) (by decide)⟩

/-- A list whose position m holds b decomposes around that position. -/
theorem take_cons_drop_of_getElem (t : List α) (m : Nat) (b : α)
    (hj : t[m]? = some b) : t.take m ++ b :: t.drop (m + 1) = t := by
  rcases List.getElem?_eq_some.mp hj with ⟨hm, hb⟩
  conv_rhs => rw [← List.take_append_drop m t]
  rw [List.drop_eq_getElem_cons hm, hb]

/-- Prepending the entry at position m to the list rewritten at that
position permutes to prepending the written value to the unchanged list. -/
theorem cons_set_perm (t : List α) (m : Nat) (a b : α) (hj : t[m]? = some b) :
    (b :: t.set m a).Perm (a :: t) := by
  rcases List.getElem?_eq_some.mp hj with ⟨hm, _⟩
  have hset : t.set m a = t.take m ++ a :: t.drop (m + 1) :=
    List.set_eq_take_cons_drop a hm
  conv_rhs => rw [← take_cons_drop_of_getElem t m b hj]
  rw [hset]
  exact (List.Perm.cons b List.perm_middle).trans
    ((List.Perm.swap a b (t.take m ++ t.drop (m + 1))).trans
      (List.Perm.cons a List.perm_middle.symm))

/-- Exchanging the entries at two in-range positions of a list yields a
permutation of it. -/
theorem set_set_perm : ∀ (l : List α) (i j : Nat) (a b : α),
    l[i]? = some a → l[j]? = some b → ((l.set i b).set j a).Perm l
  | [], _, _, _, _, hi, _ => by simp at hi
  | x :: t, 0, 0, a, b, hi, hj => by
    simp only [List.getElem?_cons_zero, Option.some_inj] at hi hj
    rw [← hi, ← hj]
    simp
  | x :: t, 0, Nat.succ m, a, b, hi, hj => by
    simp only [List.getElem?_cons_zero, Option.some_inj] at hi
    simp only [List.getElem?_cons_succ] at hj
    rw [← hi]
    rw [List.set_cons_zero, List.set_cons_succ]
    exact cons_set_perm t m x b hj
  | x :: t, Nat.succ n, 0, a, b, hi, hj => by
    simp only [List.getElem?_cons_zero, Option.some_inj] at hj
    simp only [List.getElem?_cons_succ] at hi
    rw [← hj]
    rw [List.set_cons_succ, List.set_cons_zero]
    exact cons_set_perm t n x a hi
  | x :: t, Nat.succ n, Nat.succ m, a, b, hi, hj => by
    simp only [List.getElem?_cons_succ] at hi hj
    rw [List.set_cons_succ, List.set_cons_succ]
    exact List.Perm.cons x (set_set_perm t n m a b hi hj)

/-- listSwap yields a permutation of its input. -/
theorem listSwap_perm (l : List α) (i j : Nat) : (listSwap l i j).Perm l := by
  unfold listSwap
  cases hi : l.get? i with
  | none => exact List.Perm.refl l
  | some a =>
    cases hj : l.get? j with
    | none => exact List.Perm.refl l
    | some b =>
      rw [List.get?_eq_getElem?] at hi hj
      exact set_set_perm l i j a b hi hj

/-- swapElements yields a permutation of its input. -/
theorem swapElements_perm (array : List WindowDescriptor) (i1 i2 : Option Nat) :
    (swapElements array i1 i2).Perm array := by
  unfold swapElements
  cases h1 : findIndexById array i1 with
  | none => exact List.Perm.refl array
  | some j =>
    cases h2 : findIndexById array i2 with
    | none => exact List.Perm.refl array
    | some k => exact listSwap_perm array j k

/-- Replaying any committed swap list over a descriptor array yields a
permutation of the array. -/
theorem applySwapsList_perm (swaps : List (List Nat)) (array : List WindowDescriptor) :
    (swaps.foldl (fun arr s => swapElements arr (s.get? 0) (s.get? 1)) array).Perm array := by
  induction swaps generalizing array with
  | nil => exact List.Perm.refl array
  | cons s ss ih =>
    exact (ih (swapElements array (s.get? 0) (s.get? 1))).trans
      (swapElements_perm array (s.get? 0) (s.get? 1))

/-- C10: applying a swap pair to a descriptor array is a no-op when either
id has no matching descriptor; when both match (first occurrences at
positions j and k) exactly those two positions exchange and every other
position is unchanged; consequently the committed-swap replay (applySwaps)
and the provisional application (applyTmp) always permute the array, so
replaying stale swaps that reference closed windows is safe. -/
theorem swapElements_spec :
    (∀ (array : List WindowDescriptor) (i1 i2 : Option Nat),
        findIndexById array i1 = none ∨ findIndexById array i2 = none →
        swapElements array i1 i2 = array) ∧
    (∀ (array : List WindowDescriptor) (i1 i2 : Option Nat) (j k : Nat),
        findIndexById array i1 = some j → findIndexById array i2 = some k →
        (swapElements array i1 i2).length = array.length ∧
        (swapElements array i1 i2)[j]? = array[k]? ∧
        (swapElements array i1 i2)[k]? = array[j]? ∧
        (∀ m, m ≠ j → m ≠ k → (swapElements array i1 i2)[m]? = array[m]?)) ∧
    (∀ (world : World) (array : List WindowDescriptor),
        (applySwaps world array).Perm array ∧ (applyTmp world array).Perm array) := by
  refine ⟨?_, ?_, ?_⟩
  · intro array i1 i2 h
    unfold swapElements
    rcases h with h | h
    · rw [h]
    · rw [h]
      cases findIndexById array i1 <;> rfl
  · intro array i1 i2 j k hj hk
    have hjlt : j < array.length := by
      simp only [findIndexById] at hj
      exact (List.findIdx?_eq_some_iff_findIdx_eq.mp hj).1
    have hklt : k < array.length := by
      simp only [findIndexById] at hk
      exact (List.findIdx?_eq_some_iff_findIdx_eq.mp hk).1
    have hswap : swapElements array i1 i2 =
        (array.set j (array.get ⟨k, hklt⟩)).set k (array.get ⟨j, hjlt⟩) := by
      unfold swapElements
      rw [hj, hk]
      show listSwap array j k = _
      unfold listSwap
      rw [List.get?_eq_getElem?, List.get?_eq_getElem?,
        List.getElem?_eq_getElem hjlt, List.getElem?_eq_getElem hklt]
      rfl
    rw [hswap]
    refine ⟨by simp, ?_, ?_, ?_⟩
    · by_cases hjk : j = k
      · subst hjk
        rw [List.getElem?_set_self (by simpa using hjlt)]
        rw [List.getElem?_eq_getElem hjlt]
        rfl
      · rw [List.getElem?_set_ne (fun h => hjk h.symm),
          List.getElem?_set_self hjlt, List.getElem?_eq_getElem hklt]
        rfl
    · rw [List.getElem?_set_self (by simpa using hklt)]
      rw [List.getElem?_eq_getElem hjlt]
      rfl
    · intro m hmj hmk
      rw [List.getElem?_set_ne (fun h => hmk h.symm),
        List.getElem?_set_ne (fun h => hmj h.symm)]
  · intro world array
    constructor
    · exact applySwapsList_perm world.swaps array
    · unfold applyTmp
      by_cases h : world.tmp_swap.length != 0
      · simp only [h, if_true]
        exact swapElements_perm array _ _
      · simp only [h, if_false]
        exact List.Perm.refl array

/-- C10, witness: a concrete three-descriptor array; a swap naming a
closed window id 99 is a no-op, a swap of ids 10 and 30 exchanges exactly
the first and third positions and leaves the middle untouched. -/
theorem swapElements_spec_witness :
    swapElements
        [⟨0, 0, 0, 100, 100, 10⟩, ⟨1, 0, 0, 100, 100, 20⟩, ⟨2, 0, 0, 100, 100, 30⟩]
        (some 10) (some 99) =
      [⟨0, 0, 0, 100, 100, 10⟩, ⟨1, 0, 0, 100, 100, 20⟩, ⟨2, 0, 0, 100, 100, 30⟩] ∧
    (swapElements
        [⟨0, 0, 0, 100, 100, 10⟩, ⟨1, 0, 0, 100, 100, 20⟩, ⟨2, 0, 0, 100, 100, 30⟩]
        (some 10) (some 30))[0]? =
      [(⟨0, 0, 0, 100, 100, 10⟩ : WindowDescriptor), ⟨1, 0, 0, 100, 100, 20⟩,
        ⟨2, 0, 0, 100, 100, 30⟩][2]? ∧
    (swapElements
        [⟨0, 0, 0, 100, 100, 10⟩, ⟨1, 0, 0, 100, 100, 20⟩, ⟨2, 0, 0, 100, 100, 30⟩]
        (some 10) (some 30))[1]? =
      [(⟨0, 0, 0, 100, 100, 10⟩ : WindowDescriptor), ⟨1, 0, 0, 100, 100, 20⟩,
        ⟨2, 0, 0, 100, 100, 30⟩][1]? := by
  refine ⟨?_, ?_, ?_⟩
  · exact swapElements_spec.1
      [⟨0, 0, 0, 100, 100, 10⟩, ⟨1, 0, 0, 100, 100, 20⟩, ⟨2, 0, 0, 100, 100, 30⟩]
      (some 10) (some 99) (Or.inr (by decide))
  · exact (swapElements_spec.2.1
      [⟨0, 0, 0, 100, 100, 10⟩, ⟨1, 0, 0, 100, 100, 20⟩, ⟨2, 0, 0, 100, 100, 30⟩]
      (some 10) (some 30) 0 2 (by decide) (by decide)).2.1
  · exact (swapElements_spec.2.1
      [⟨0, 0, 0, 100, 100, 10⟩, ⟨1, 0, 0, 100, 100, 20⟩, ⟨2, 0, 0, 100, 100, 30⟩]
      (some 10) (some 30) 0 2 (by decide) (by decide)).2.2.2 1 (by decide) (by decide)

/-- The row-close phase never changes the overflow flag. -/
theorem tileCloseIfNeeded_overflow (area : Rect) (s : PackState) (w : PItem) :
    (tileCloseIfNeeded area s w).overflow = s.overflow := by
  unfold tileCloseIfNeeded
  split <;> rfl

/-- The row-close phase never changes the number of placed descriptors. -/
theorem tileCloseIfNeeded_placed (area : Rect) (s : PackState) (w : PItem) :
    placedCount (tileCloseIfNeeded area s w) = placedCount s := by
  unfold tileCloseIfNeeded
  split
  · simp [placedCount, emptyLevel]
  · rfl

/-- A packing step reports overflow exactly when the incoming state already
overflowed or the descriptor was skipped. -/
theorem tileStep_overflow (area : Rect) (s : PackState) (w : PItem) :
    (tileStep area s w).1.overflow = (s.overflow || !(tileStep area s w).2) := by
  by_cases h : tileSkipCond area (tileCloseIfNeeded area s w) w = true
  · simp [tileStep, h, tileCloseIfNeeded_overflow]
  · simp [tileStep, h, tileCloseIfNeeded_overflow]

/-- A packing step increments the placed count exactly when it places the
descriptor. -/
theorem tileStep_placed (area : Rect) (s : PackState) (w : PItem) :
    placedCount (tileStep area s w).1 =
      placedCount s + (if (tileStep area s w).2 then 1 else 0) := by
  have hc := tileCloseIfNeeded_placed area s w
  cases htest : tileSkipCond area (tileCloseIfNeeded area s w) w
  · simp only [tileStep, htest]
    simp [placedCount] at hc ⊢
    omega
  · simp only [tileStep, htest]
    simp [placedCount] at hc ⊢
    omega

/-- The skip decision of a packing step matches the condition as the spec
states it — the running total height would exceed the area height, or the
descriptor width alone exceeds the area width — provided the open row has
the nonnegative width every reachable state has. -/
theorem tileStep_skip_iff (area : Rect) (s : PackState) (w : PItem)
    (hcur : 0 ≤ s.cur.width) :
    ((tileStep area s w).2 = false ↔ specSkipCond area (tileCloseIfNeeded area s w) w) := by
  have hstep : (tileStep area s w).2 = !(tileSkipCond area (tileCloseIfNeeded area s w) w) := by
    cases htest : tileSkipCond area (tileCloseIfNeeded area s w) w
    · simp only [tileStep, htest]
      rfl
    · simp only [tileStep, htest]
      rfl
  rw [hstep, Bool.not_eq_false']
  unfold tileCloseIfNeeded
  split
  · next hclose =>
    simp only [tileSkipCond, specSkipCond, emptyLevel, Bool.or_eq_true, decide_eq_true_eq]
    constructor
    · rintro (h | h)
      · left; linarith
      · right; linarith
    · rintro (h | h)
      · left; linarith
      · right; linarith
  · next hclose =>
    push_neg at hclose
    simp only [tileSkipCond, specSkipCond, Bool.or_eq_true, decide_eq_true_eq]
    constructor
    · rintro (h | h)
      · left; linarith
      · exfalso
        have hsp : (0 : ℚ) < WINDOW_SPACING := by norm_num [WINDOW_SPACING]
        linarith
    · rintro (h | h)
      · left; linarith
      · exfalso
        have hsp : (0 : ℚ) < WINDOW_SPACING := by norm_num [WINDOW_SPACING]
        linarith

/-- The walk emits one placement flag per descriptor. -/
theorem tileSteps_length (area : Rect) :
    ∀ (s : PackState) (ws : List PItem), (tileSteps area s ws).2.length = ws.length := by
  intro s ws
  induction ws generalizing s with
  | nil => rfl
  | cons w rest ih =>
    simp only [tileSteps]
    simpa using ih (tileStep area s w).1

/-- The walk ends with the overflow flag set exactly when it started set or
some descriptor was skipped. -/
theorem tileSteps_overflow (area : Rect) :
    ∀ (s : PackState) (ws : List PItem),
      ((tileSteps area s ws).1.overflow = true ↔
        s.overflow = true ∨ false ∈ (tileSteps area s ws).2) := by
  intro s ws
  induction ws generalizing s with
  | nil => simp [tileSteps]
  | cons w rest ih =>
    simp only [tileSteps, List.mem_cons]
    rw [ih (tileStep area s w).1, tileStep_overflow]
    cases h : (tileStep area s w).2 <;> simp [h] <;> tauto

/-- The walk places exactly the descriptors whose flag is true. -/
theorem tileSteps_placed (area : Rect) :
    ∀ (s : PackState) (ws : List PItem),
      placedCount (tileSteps area s ws).1 =
        placedCount s + (tileSteps area s ws).2.count true := by
  intro s ws
  induction ws generalizing s with
  | nil => simp [tileSteps]
  | cons w rest ih =>
    simp only [tileSteps]
    rw [List.count_cons]
    have h1 := ih (tileStep area s w).1
    have h2 := tileStep_placed area s w
    simp only [h1, h2]
    cases h : (tileStep area s w).2 <;> simp [h] <;> omega

/-- Length of the level-concatenation fold used for the windows field of
the packer result. -/
theorem concatWindows_length :
    ∀ (levels : List Level) (acc : List PItem),
      (levels.foldl (fun acc l => acc ++ l.windows) acc).length =
        acc.length + (levels.map (fun l => l.windows.length)).sum := by
  intro levels
  induction levels with
  | nil => simp
  | cons l rest ih =>
    intro acc
    simp only [List.foldl_cons, List.map_cons, List.sum_cons]
    rw [ih]
    simp
    omega

/-- Count of trues and falses of a Bool list partitions its length. -/
theorem count_true_add_count_false (l : List Bool) :
    l.count true + l.count false = l.length := by
  induction l with
  | nil => rfl
  | cons b rest ih =>
    cases b <;> simp [List.count_cons] <;> omega

/-- C2: in the packer walk, a descriptor is skipped (placement flag false)
exactly when, after the row-close phase, placing it would push the running
total height beyond the area height or its width alone exceeds the area
width; a skip sets the overflow flag; the walk never aborts — it emits one
flag per descriptor, the final result reports overflow exactly when some
descriptor was skipped, and the placed descriptors together with the
skipped ones account for the whole input. -/
theorem mosaicPack_skip_spec :
    (∀ (area : Rect) (s : PackState) (w : PItem), 0 ≤ s.cur.width →
        ((tileStep area s w).2 = false ↔
          specSkipCond area (tileCloseIfNeeded area s w) w)) ∧
    (∀ (area : Rect) (s : PackState) (w : PItem),
        (tileStep area s w).2 = false → (tileStep area s w).1.overflow = true) ∧
    (∀ (area : Rect) (ws : List PItem),
        (tileSteps area initPackState ws).2.length = ws.length ∧
        ((tile ws area).overflow = true ↔
          false ∈ (tileSteps area initPackState ws).2) ∧
        (tile ws area).windows.length +
          (tileSteps area initPackState ws).2.count false = ws.length) := by
  refine ⟨tileStep_skip_iff, ?_, ?_⟩
  · intro area s w h
    rw [tileStep_overflow, h]
    simp
  · intro area ws
    refine ⟨tileSteps_length area initPackState ws, ?_, ?_⟩
    · have h := tileSteps_overflow area initPackState ws
      simp only [initPackState] at h
      unfold tile
      simpa using h
    · have hplaced := tileSteps_placed area initPackState ws
      have hlen := tileSteps_length area initPackState ws
      have hcount := count_true_add_count_false (tileSteps area initPackState ws).2
      have hwin : (tile ws area).windows.length =
          placedCount (tileSteps area initPackState ws).1 := by
        simp only [tile]
        rw [concatWindows_length]
        simp [placedCount]
      have hinit : placedCount initPackState = 0 := rfl
      rw [hwin, hplaced, hinit]
      omega

/-- C2, witness: a single descriptor wider than the area is skipped with
overflow reported, discharging the hypotheses on a concrete run. -/
theorem mosaicPack_skip_spec_witness :
    ((0 : ℚ) ≤ initPackState.cur.width) ∧
    ((tileStep ⟨0, 0, 100, 100⟩ initPackState (PItem.desc ⟨0, 0, 0, 200, 50, 1⟩)).2 = false ↔
      specSkipCond ⟨0, 0, 100, 100⟩
        (tileCloseIfNeeded ⟨0, 0, 100, 100⟩ initPackState (PItem.desc ⟨0, 0, 0, 200, 50, 1⟩))
        (PItem.desc ⟨0, 0, 0, 200, 50, 1⟩)) ∧
    ((tile [PItem.desc ⟨0, 0, 0, 200, 50, 1⟩] ⟨0, 0, 100, 100⟩).overflow = true ↔
      false ∈ (tileSteps ⟨0, 0, 100, 100⟩ initPackState
        [PItem.desc ⟨0, 0, 0, 200, 50, 1⟩]).2) := by
  refine ⟨by decide, ?_, ?_⟩
  · exact mosaicPack_skip_spec.1 ⟨0, 0, 100, 100⟩ initPackState
      (PItem.desc ⟨0, 0, 0, 200, 50, 1⟩) (by decide)
  · exact (mosaicPack_skip_spec.2.2 ⟨0, 0, 100, 100⟩
      [PItem.desc ⟨0, 0, 0, 200, 50, 1⟩]).2.1

/-- Unfolded form of tileStep for step-by-step evaluation. -/
theorem tileStep_eq (area : Rect) (s : PackState) (w : PItem) :
    tileStep area s w =
      if tileSkipCond area (tileCloseIfNeeded area s w) w then
        ({ tileCloseIfNeeded area s w with overflow := true }, false)
      else
        ({ tileCloseIfNeeded area s w with cur :=
            { (tileCloseIfNeeded area s w).cur with
              windows := (tileCloseIfNeeded area s w).cur.windows ++ [w],
              width := (if (tileCloseIfNeeded area s w).cur.width != 0 then
                  (tileCloseIfNeeded area s w).cur.width + WINDOW_SPACING
                else (tileCloseIfNeeded area s w).cur.width) + w.width,
              height := max w.height (tileCloseIfNeeded area s w).cur.height } }, true) :=
  rfl

/-- The no-close case of the row-close phase. -/
theorem tileCloseIfNeeded_no (area : Rect) (s : PackState) (w : PItem)
    (h : ¬(s.cur.width + WINDOW_SPACING + w.width > area.width)) :
    tileCloseIfNeeded area s w = s := by
  unfold tileCloseIfNeeded
  rw [if_neg h]

/-- The close case of the row-close phase. -/
theorem tileCloseIfNeeded_yes (area : Rect) (s : PackState) (w : PItem)
    (h : s.cur.width + WINDOW_SPACING + w.width > area.width) :
    tileCloseIfNeeded area s w =
      ⟨s.done ++ [{ s.cur with x := (area.width - s.cur.width) / 2 + area.x }],
        emptyLevel, max s.cur.width s.totalWidth,
        s.totalHeight + s.cur.height + WINDOW_SPACING, s.overflow⟩ := by
  unfold tileCloseIfNeeded
  rw [if_pos h]

/-- C3: three descriptors of width W (any heights h fitting one row but
not two) packed into an area of width 5W/2 overflow: the first two are
placed, the third is dropped, and the result reports overflow. -/
theorem pack_three_in_two_and_half_overflow (W h H ax ay : ℚ)
    (d1 d2 d3 : PItem)
    (h1w : d1.width = W) (h2w : d2.width = W) (h3w : d3.width = W)
    (h1h : d1.height = h) (h2h : d2.height = h) (h3h : d3.height = h)
    (hW : 16 ≤ W) (h0 : 0 ≤ h) (hhH : h ≤ H) (hH : H < 2 * h + 8) :
    (tile [d1, d2, d3] ⟨ax, ay, 5 * W / 2, H⟩).overflow = true ∧
    (tileSteps ⟨ax, ay, 5 * W / 2, H⟩ initPackState [d1, d2, d3]).2 =
      [true, true, false] := by
  have hsp : WINDOW_SPACING = (8 : ℚ) := rfl
  -- step 1: no close, place
  have hc1 : tileCloseIfNeeded ⟨ax, ay, 5 * W / 2, H⟩ initPackState d1 = initPackState := by
    apply tileCloseIfNeeded_no
    simp only [initPackState, emptyLevel, hsp, h1w]
    push_neg
    linarith
  have e1 : tileStep ⟨ax, ay, 5 * W / 2, H⟩ initPackState d1 =
      (⟨[], ⟨0, W, h, [d1]⟩, 0, 0, false⟩, true) := by
    rw [tileStep_eq, hc1]
    rw [if_neg]
    · simp only [initPackState, emptyLevel]
      simp only [h1w, h1h]
      norm_num
      exact h0
    · simp only [tileSkipCond, initPackState, emptyLevel, h1w, h1h]
      simp only [Bool.or_eq_true, decide_eq_true_eq, not_or]
      constructor
      · simp only [max_eq_left h0]
        push_neg
        linarith
      · push_neg
        linarith
  -- step 2: no close, place
  have hc2 : tileCloseIfNeeded ⟨ax, ay, 5 * W / 2, H⟩ ⟨[], ⟨0, W, h, [d1]⟩, 0, 0, false⟩ d2 =
      ⟨[], ⟨0, W, h, [d1]⟩, 0, 0, false⟩ := by
    apply tileCloseIfNeeded_no
    simp only [hsp, h2w]
    push_neg
    linarith
  have e2 : tileStep ⟨ax, ay, 5 * W / 2, H⟩ ⟨[], ⟨0, W, h, [d1]⟩, 0, 0, false⟩ d2 =
      (⟨[], ⟨0, 2 * W + 8, h, [d1, d2]⟩, 0, 0, false⟩, true) := by
    rw [tileStep_eq, hc2]
    rw [if_neg]
    · simp only [h2w, h2h]
      have hWne : (W != 0) = true := by
        simp only [bne_iff_ne, ne_eq]
        intro hfalse
        rw [hfalse] at hW
        norm_num at hW
      rw [hWne]
      simp only [if_true, hsp, max_self]
      norm_num
      ring
    · simp only [tileSkipCond, h2w, h2h]
      simp only [Bool.or_eq_true, decide_eq_true_eq, not_or]
      constructor
      · simp only [max_self]
        push_neg
        linarith
      · push_neg
        linarith
  -- step 3: close, then skip with overflow
  have hc3 : tileCloseIfNeeded ⟨ax, ay, 5 * W / 2, H⟩
      ⟨[], ⟨0, 2 * W + 8, h, [d1, d2]⟩, 0, 0, false⟩ d3 =
      ⟨[⟨(5 * W / 2 - (2 * W + 8)) / 2 + ax, 2 * W + 8, h, [d1, d2]⟩],
        emptyLevel, max (2 * W + 8) 0, 0 + h + WINDOW_SPACING, false⟩ := by
    apply tileCloseIfNeeded_yes
    simp only [hsp, h3w]
    linarith
  have e3 : tileStep ⟨ax, ay, 5 * W / 2, H⟩
      ⟨[], ⟨0, 2 * W + 8, h, [d1, d2]⟩, 0, 0, false⟩ d3 =
      (⟨[⟨(5 * W / 2 - (2 * W + 8)) / 2 + ax, 2 * W + 8, h, [d1, d2]⟩],
        emptyLevel, max (2 * W + 8) 0, 0 + h + WINDOW_SPACING, true⟩, false) := by
    rw [tileStep_eq, hc3]
    rw [if_pos]
    simp only [tileSkipCond, emptyLevel, h3w, h3h, hsp]
    simp only [Bool.or_eq_true, decide_eq_true_eq]
    left
    simp only [max_eq_left h0]
    linarith
  -- assemble the walk
  have hsteps : tileSteps ⟨ax, ay, 5 * W / 2, H⟩ initPackState [d1, d2, d3] =
      (⟨[⟨(5 * W / 2 - (2 * W + 8)) / 2 + ax, 2 * W + 8, h, [d1, d2]⟩],
        emptyLevel, max (2 * W + 8) 0, 0 + h + WINDOW_SPACING, true⟩,
        [true, true, false]) := by
    simp only [tileSteps, e1, e2, e3]
  constructor
  · show (tile [d1, d2, d3] ⟨ax, ay, 5 * W / 2, H⟩).overflow = true
    simp only [tile, hsteps]
  · rw [hsteps]

/-- C3, witness: W = 400, window heights 300, area 1000 x 300 — the first
two descriptors are placed, the third dropped, overflow reported. -/
theorem pack_three_in_two_and_half_overflow_witness :
    (tile [PItem.desc ⟨0, 0, 0, 400, 300, 1⟩, PItem.desc ⟨1, 0, 0, 400, 300, 2⟩,
        PItem.desc ⟨2, 0, 0, 400, 300, 3⟩] ⟨0, 0, 5 * 400 / 2, 300⟩).overflow = true ∧
    (tileSteps ⟨0, 0, 5 * 400 / 2, 300⟩ initPackState
        [PItem.desc ⟨0, 0, 0, 400, 300, 1⟩, PItem.desc ⟨1, 0, 0, 400, 300, 2⟩,
          PItem.desc ⟨2, 0, 0, 400, 300, 3⟩]).2 = [true, true, false] :=
  pack_three_in_two_and_half_overflow 400 300 300 0 0
    (PItem.desc ⟨0, 0, 0, 400, 300, 1⟩) (PItem.desc ⟨1, 0, 0, 400, 300, 2⟩)
    (PItem.desc ⟨2, 0, 0, 400, 300, 3⟩)
    rfl rfl rfl rfl rfl rfl (by norm_num) (by norm_num) (by norm_num) (by norm_num)

/-- Outside a drag, getWorkingInfo for a candidate window keeps the whole
monitor window list and yields the swapped, masked descriptors of the
windowsForSwaps selection, refusing only when a monitor window is
maximized or fullscreen. -/
theorem getWorkingInfo_not_dragging (world : World) (w : Win) (monitor : Nat)
    (hdrag : world.isDragging = false) :
    getWorkingInfo world (some w) monitor false =
      if (getMonitorWorkspaceWindows world monitor).any isMaximizedOrFullscreen then none
      else
        some ⟨monitor, getMonitorWorkspaceWindows world monitor,
          (applyTmp world (applySwaps world
            (windowsToDescriptors (windowsForSwapsOf world monitor) monitor (some w)))).map
            (getMask world),
          world.workArea⟩ := by
  unfold getWorkingInfo windowsForSwapsOf
  simp only [hdrag, Bool.and_false, Bool.false_and, if_false, Bool.false_eq_true]

/-- Outside a drag and with no maximized or fullscreen window on the
monitor, getWorkingInfo succeeds with the undisturbed working set. -/
theorem getWorkingInfo_some (world : World) (w : Win) (monitor : Nat)
    (hdrag : world.isDragging = false)
    (hany : (getMonitorWorkspaceWindows world monitor).any isMaximizedOrFullscreen = false) :
    getWorkingInfo world (some w) monitor false =
      some ⟨monitor, getMonitorWorkspaceWindows world monitor,
        (applyTmp world (applySwaps world
          (windowsToDescriptors (windowsForSwapsOf world monitor) monitor (some w)))).map
          (getMask world),
        world.workArea⟩ := by
  rw [getWorkingInfo_not_dragging world w monitor hdrag, hany]
  simp

/-- C6: canFitWindow returns true for a fullscreen candidate; false when
any window on the monitor is maximized or fullscreen; false when both a
left-side and a right-side edge zone are occupied by other windows; and
otherwise the negation of the packer overflow over the current mosaic
descriptors with the candidate appended (current geometry when already
present, else a 200 x 200 placeholder), packed into the remaining-space
rectangle — and it mutates no state (the model function is pure). -/
theorem canFitWindow_spec (world : World) (w : Win) (monitor : Nat)
    (hdrag : world.isDragging = false) :
    (w.fullscreen = true → canFitWindow world w monitor = true) ∧
    (w.fullscreen = false →
      (getMonitorWorkspaceWindows world monitor).any isMaximizedOrFullscreen = true →
      canFitWindow world w monitor = false) ∧
    (w.fullscreen = false →
      (getMonitorWorkspaceWindows world monitor).any isMaximizedOrFullscreen = false →
      bothSidesOccupiedByOthers world w monitor = true →
      canFitWindow world w monitor = false) ∧
    (w.fullscreen = false →
      (getMonitorWorkspaceWindows world monitor).any isMaximizedOrFullscreen = false →
      bothSidesOccupiedByOthers world w monitor = false →
      canFitWindow world w monitor =
        !(tile (canFitInput world w monitor) (canFitSpace world monitor)).overflow) := by
  refine ⟨?_, ?_, ?_, ?_⟩
  · intro hfs
    simp [canFitWindow, hfs]
  · intro hfs hany
    simp only [canFitWindow, hfs, Bool.false_eq_true, if_false]
    rw [getWorkingInfo_not_dragging world w monitor hdrag, if_pos hany]
  · intro hfs hany hboth
    simp only [canFitWindow, hfs, Bool.false_eq_true, if_false,
      getWorkingInfo_some world w monitor hdrag hany, hany]
    have hlen : (getEdgeTiledWindows world.et monitor).length > 0 := by
      by_contra hcon
      have hnil : getEdgeTiledWindows world.et monitor = [] := by
        cases hx : getEdgeTiledWindows world.et monitor with
        | nil => rfl
        | cons y ys => rw [hx] at hcon; simp at hcon
      rw [bothSidesOccupiedByOthers, hnil] at hboth
      simp at hboth
    rw [bothSidesOccupiedByOthers] at hboth
    simp only [hlen, if_true, hboth, Bool.false_eq_true, if_false]
  · intro hfs hany hboth
    simp only [canFitWindow, hfs, Bool.false_eq_true, if_false,
      getWorkingInfo_some world w monitor hdrag hany, hany]
    rw [bothSidesOccupiedByOthers] at hboth
    simp only [canFitInput, canFitSpace,
      getWorkingInfo_some world w monitor hdrag hany]
    by_cases hlen : (getEdgeTiledWindows world.et monitor).length > 0
    · simp only [hlen, if_true, hboth, Bool.false_eq_true, if_false]
    · simp only [hlen, if_false]

/-- C6, witness: a resting workspace with two mosaic windows and a new
250 x 250 candidate — no maximized window, sides free — the fit test
equals the packer verdict on the appended descriptor list. -/
theorem canFitWindow_spec_witness :
    ((mkWorld ⟨[plainWin 1 ⟨0, 0, 300, 300⟩, plainWin 2 ⟨320, 0, 300, 300⟩],
        [], [], []⟩ ⟨0, 0, 1000, 600⟩).isDragging = false) ∧
    canFitWindow
        (mkWorld ⟨[plainWin 1 ⟨0, 0, 300, 300⟩, plainWin 2 ⟨320, 0, 300, 300⟩],
          [], [], []⟩ ⟨0, 0, 1000, 600⟩)
        (plainWin 3 ⟨0, 0, 250, 250⟩) 0 =
      !(tile
          (canFitInput
            (mkWorld ⟨[plainWin 1 ⟨0, 0, 300, 300⟩, plainWin 2 ⟨320, 0, 300, 300⟩],
              [], [], []⟩ ⟨0, 0, 1000, 600⟩)
            (plainWin 3 ⟨0, 0, 250, 250⟩) 0)
          (canFitSpace
            (mkWorld ⟨[plainWin 1 ⟨0, 0, 300, 300⟩, plainWin 2 ⟨320, 0, 300, 300⟩],
              [], [], []⟩ ⟨0, 0, 1000, 600⟩) 0)).overflow :=
  ⟨rfl,
    (canFitWindow_spec
      (mkWorld ⟨[plainWin 1 ⟨0, 0, 300, 300⟩, plainWin 2 ⟨320, 0, 300, 300⟩],
        [], [], []⟩ ⟨0, 0, 1000, 600⟩)
      (plainWin 3 ⟨0, 0, 250, 250⟩) 0 rfl).2.2.2 rfl (by decide) (by decide)⟩

/-- moveOversizedWindow does not touch the provisional swap. -/
theorem moveOversizedWindow_tmp (world : World) (winId : Nat) :
    (moveOversizedWindow world winId).tmp_swap = world.tmp_swap := rfl

/-- The eviction fold of the fully-occupied branch does not touch the
provisional swap. -/
theorem foldl_move_tmp : ∀ (ws : List Win) (world : World),
    ((ws.foldl (fun acc w =>
      if !(isExcluded w) then moveOversizedWindow acc w.id else acc) world).tmp_swap) =
      world.tmp_swap := by
  intro ws
  induction ws with
  | nil => intro world; rfl
  | cons w rest ih =>
    intro world
    rw [List.foldl_cons]
    rw [ih]
    cases h : isExcluded w <;> simp [h, moveOversizedWindow_tmp]

/-- A fold whose step never touches the provisional swap preserves it. -/
theorem foldl_preserves_tmp {β : Type} (f : World → β → World)
    (hf : ∀ w b, (f w b).tmp_swap = w.tmp_swap) :
    ∀ (l : List β) (w : World), (l.foldl f w).tmp_swap = w.tmp_swap := by
  intro l
  induction l with
  | nil => intro w; rfl
  | cons b rest ih =>
    intro w
    rw [List.foldl_cons, ih, hf]

/-- The animation realization does not touch the provisional swap. -/
theorem applyTargetsAnimate_tmp (world : World) (mws : List Win)
    (targets : List (Option Nat × Rect)) :
    (applyTargetsAnimate world mws targets).tmp_swap = world.tmp_swap := by
  unfold applyTargetsAnimate
  apply foldl_preserves_tmp
  intro w b
  rcases b with ⟨b1, b2⟩
  cases b1 with
  | none => rfl
  | some wid =>
    show (match findWindowById mws wid with
      | none => w
      | some _ =>
        if world.resizingWindowId == some wid then
          { w with et := { w.et with windows := setFramePos w.et.windows wid b2.x b2.y } }
        else
          { w with et := { w.et with windows := setFrame w.et.windows wid b2 } }).tmp_swap =
      w.tmp_swap
    cases findWindowById mws wid with
    | none => rfl
    | some _ =>
      by_cases h : world.resizingWindowId == some wid
      · simp only [h]
        rfl
      · simp only [h]
        rfl

/-- The drawTile realization does not touch the provisional swap. -/
theorem applyTargetsDraw_tmp (world : World) (mws : List Win)
    (targets : List (Option Nat × Rect)) :
    (applyTargetsDraw world mws targets).tmp_swap = world.tmp_swap := by
  unfold applyTargetsDraw
  apply foldl_preserves_tmp
  intro w b
  rcases b with ⟨b1, b2⟩
  cases b1 with
  | none => rfl
  | some wid =>
    show (match findWindowById mws wid with
      | none => w
      | some _ =>
        { w with et := { w.et with windows := setFramePos w.et.windows wid b2.x b2.y } }).tmp_swap =
      w.tmp_swap
    cases findWindowById mws wid with
    | none => rfl
    | some _ => rfl

/-- The packing-and-realization tail returning a value never changes the
provisional swap. -/
theorem tileWSCore_tmp (world : World) (ref : Option Win) (monitor : Nat) (k : Bool)
    (mws : List Win) (wins : List PItem) (wa : Rect) (r : Option Bool × World)
    (h : tileWSCore world ref monitor k mws wins wa = some r) :
    r.2.tmp_swap = world.tmp_swap := by
  simp only [tileWSCore] at h
  split at h
  · exact absurd h (by simp)
  · rename_i windows1 tileInfo1 world1 heq
    injection h with h2
    subst h2
    have hw1 : world1.tmp_swap = world.tmp_swap := by
      repeat' split at heq
      all_goals try exact Option.noConfusion heq
      all_goals
        simp only [Option.some_inj, Prod.mk.injEq] at heq
        rcases heq with ⟨e1, e2, e3⟩
        rw [← e3]
        try simp [moveOversizedWindow_tmp]
    show (if _ then applyTargetsAnimate world1 mws _ else
        if _ then world1 else applyTargetsDraw world1 mws _).tmp_swap = world.tmp_swap
    split
    · rw [applyTargetsAnimate_tmp, hw1]
    · split
      · exact hw1
      · rw [applyTargetsDraw_tmp, hw1]

/-- The orchestrator pass, when it returns, never changes the provisional
swap (it only reads it through getWorkingInfo). -/
theorem tileWS_tmp (world : World) (ref : Option Win) (monitor : Nat) (k e : Bool)
    (r : Option Bool × World)
    (h : tileWorkspaceWindows world ref monitor k e = some r) :
    r.2.tmp_swap = world.tmp_swap := by
  simp only [tileWorkspaceWindows] at h
  repeat' split at h
  all_goals
    first
      | (injection h with h2; subst h2; first | rfl | exact foldl_move_tmp _ _)
      | exact tileWSCore_tmp _ _ _ _ _ _ _ _ h

/-- With no reference window the packing tail cannot throw. -/
theorem tileWSCore_none_isSome (world : World) (monitor : Nat) (k : Bool)
    (mws : List Win) (wins : List PItem) (wa : Rect) :
    (tileWSCore world none monitor k mws wins wa).isSome = true := rfl

/-- With no reference window the orchestrator pass cannot throw: the
TypeError of the eviction scan is only reachable with a reference
window. -/
theorem tileWS_none_isSome (world : World) (monitor : Nat) (k e : Bool) :
    (tileWorkspaceWindows world none monitor k e).isSome = true := by
  simp only [tileWorkspaceWindows]
  repeat' split
  all_goals first | rfl | exact tileWSCore_none_isSome _ _ _ _ _ _

/-- setTmpSwap only writes the provisional pair. -/
theorem setTmpSwap_et (world : World) (a b : Nat) : (setTmpSwap world a b).et = world.et := by
  unfold setTmpSwap
  split <;> rfl

/-- clearTmpSwap only clears the provisional pair. -/
theorem clearTmpSwap_et (world : World) : (clearTmpSwap world).et = world.et := rfl

/-- The drag swap update never touches the edge tiling state. -/
theorem dragSwapUpdate_et (world : World) (id : Nat) (t : Option Nat) :
    (dragSwapUpdate world id t).et = world.et := by
  unfold dragSwapUpdate
  cases t with
  | none => rfl
  | some x =>
    by_cases h : x == id
    · simp only [h, if_true]
      rfl
    · simp only [h, if_false]
      exact setTmpSwap_et world id x

/-- The repack phase with no excluded window always completes, and when
its first repack reports overflow, the final world carries no provisional
swap and a second repack was issued with the provisional swap cleared. -/
theorem dragTickRepacks_overflow_cancels (world1 : World) (monitor : Nat) :
    ∃ res, dragTickRepacks world1 monitor none = some res ∧
      ∀ c1 rest, res.2 = c1 :: rest → c1.result = some true →
        res.1.tmp_swap = [] ∧ ∃ c2, rest = [c2] ∧ c2.tmpAtCall = [] := by
  cases hr1 : tileWorkspaceWindows world1 none monitor false false with
  | none =>
    have hs := tileWS_none_isSome world1 monitor false false
    rw [hr1] at hs
    simp at hs
  | some r1 =>
    by_cases hov : (r1.1 == some true) = true
    · cases hr2 : tileWorkspaceWindows (clearTmpSwap r1.2) none monitor false false with
      | none =>
        have hs := tileWS_none_isSome (clearTmpSwap r1.2) monitor false false
        rw [hr2] at hs
        simp at hs
      | some r2 =>
        refine ⟨(r2.2, [⟨world1.tmp_swap, r1.1⟩, ⟨(clearTmpSwap r1.2).tmp_swap, r2.1⟩]),
          ?_, ?_⟩
        · simp only [dragTickRepacks, hr1, hov, if_true, hr2]
        · intro c1 rest hr _
          constructor
          · have htmp := tileWS_tmp (clearTmpSwap r1.2) none monitor false false r2 hr2
            show r2.2.tmp_swap = []
            rw [htmp]
            rfl
          · refine ⟨⟨(clearTmpSwap r1.2).tmp_swap, r2.1⟩, ?_, rfl⟩
            simp only [List.cons.injEq] at hr
            exact hr.2.symm
    · refine ⟨(r1.2, [⟨world1.tmp_swap, r1.1⟩]), ?_, ?_⟩
      · simp only [dragTickRepacks, hr1]
        rw [if_neg hov]
      · intro c1 rest hr hres
        simp only [List.cons.injEq] at hr
        rcases hr with ⟨hc1, hrest⟩
        rw [← hc1] at hres
        simp only [RepackCall.mk.injEq] at hres
        rw [hres] at hov
        simp at hov

/-- C8: a drag tick whose cursor is not over an edge zone always
completes; if its first repack reports overflow, the tick ends with the
provisional swap cleared and a second repack was issued without it. -/
theorem dragTick_overflow_cancels (world : World) (mw : Win) (id : Nat)
    (descs : List WindowDescriptor)
    (hzone : detectZone world.et world.cursor.1 world.cursor.2 world.workArea =
      TileZone.NONE) :
    ∃ res, dragTick world mw id descs = some res ∧
      ∀ c1 rest, res.2 = c1 :: rest → c1.result = some true →
        res.1.tmp_swap = [] ∧ ∃ c2, rest = [c2] ∧ c2.tmpAtCall = [] := by
  by_cases hedge :
      (((getEdgeTiledWindows world.et mw.monitor).map (fun p => p.1.id)).contains id) = true
  · refine ⟨(world, []), ?_, ?_⟩
    · simp only [dragTick, hedge, if_true]
    · intro c1 rest hr
      exact absurd hr (by simp)
  · have hz : ∀ T : Option Nat,
        ((detectZone (dragSwapUpdate world id T).et world.cursor.1 world.cursor.2
          world.workArea != TileZone.NONE)) = false := by
      intro T
      rw [dragSwapUpdate_et, hzone]
      rfl
    simp only [dragTick, Bool.not_eq_true] at hedge ⊢
    simp only [hedge, Bool.false_eq_true, if_false, hz]
    exact dragTickRepacks_overflow_cancels _ _

/-- C8, witness: a tick with the cursor in the middle of the work area
(no edge zone) over a two-window workspace completes with the guarantee. -/
theorem dragTick_overflow_cancels_witness :
    detectZone ({ mkWorld ⟨[plainWin 1 ⟨0, 0, 300, 300⟩, plainWin 2 ⟨320, 0, 300, 300⟩],
        [], [], []⟩ ⟨0, 0, 1000, 600⟩ with cursor := (500, 300) }).et
      (500 : ℚ) (300 : ℚ) ⟨0, 0, 1000, 600⟩ = TileZone.NONE ∧
    ∃ res, dragTick
        ({ mkWorld ⟨[plainWin 1 ⟨0, 0, 300, 300⟩, plainWin 2 ⟨320, 0, 300, 300⟩],
          [], [], []⟩ ⟨0, 0, 1000, 600⟩ with cursor := (500, 300) })
        (plainWin 1 ⟨0, 0, 300, 300⟩) 1
        [⟨0, 0, 0, 300, 300, 1⟩, ⟨1, 320, 0, 300, 300, 2⟩] = some res ∧
      ∀ c1 rest, res.2 = c1 :: rest → c1.result = some true →
        res.1.tmp_swap = [] ∧ ∃ c2, rest = [c2] ∧ c2.tmpAtCall = [] :=
  ⟨by decide,
    dragTick_overflow_cancels
      ({ mkWorld ⟨[plainWin 1 ⟨0, 0, 300, 300⟩, plainWin 2 ⟨320, 0, 300, 300⟩],
        [], [], []⟩ ⟨0, 0, 1000, 600⟩ with cursor := (500, 300) })
      (plainWin 1 ⟨0, 0, 300, 300⟩) 1
      [⟨0, 0, 0, 300, 300, 1⟩, ⟨1, 320, 0, 300, 300, 2⟩] (by decide)⟩

/-- Writing NONE into a window state leaves that window reading NONE. -/
theorem zoneOf_setZone_self (sts : List (Nat × WState)) (i : Nat) :
    zoneOf (setZone sts i TileZone.NONE) i = TileZone.NONE := by
  unfold zoneOf lookupState mapGet setZone
  induction sts with
  | nil => rfl
  | cons p rest ih =>
    rw [List.map_cons]
    by_cases h : p.1 = i
    · rw [if_pos (by simpa using h), List.find?_cons_of_pos _ (by simpa using h)]
      rfl
    · rw [if_neg (by simpa using h), List.find?_cons_of_neg _ (by simpa using h)]
      exact ih

/-- Writing a zone for one id does not change the state read for another. -/
theorem lookupState_setZone_ne (sts : List (Nat × WState)) (i j : Nat) (z : TileZone)
    (h : i ≠ j) : lookupState (setZone sts j z) i = lookupState sts i := by
  unfold lookupState mapGet setZone
  induction sts with
  | nil => rfl
  | cons p rest ih =>
    rw [List.map_cons]
    by_cases hj : p.1 = j
    · have hji : ¬(p.1 = i) := fun hi => h (hi ▸ hj ▸ rfl)
      rw [if_pos (by simpa using hj),
        List.find?_cons_of_neg _ (by simpa using hji),
        List.find?_cons_of_neg _ (by simpa using hji)]
      exact ih
    · by_cases hi : p.1 = i
      · rw [if_neg (by simpa using hj),
          List.find?_cons_of_pos _ (by simpa using hi),
          List.find?_cons_of_pos _ (by simpa using hi)]
      · rw [if_neg (by simpa using hj),
          List.find?_cons_of_neg _ (by simpa using hi),
          List.find?_cons_of_neg _ (by simpa using hi)]
        exact ih

/-- A window found in a zone reads that zone from its state. -/
theorem findWindowInZone_zone (et : ETState) (z : TileZone) (w : Win)
    (h : findWindowInZone et z = some w) :
    ∃ st, lookupState et.states w.id = some st ∧ st.zone = z := by
  unfold findWindowInZone at h
  have hp := List.find?_some h
  cases hl : lookupState et.states w.id with
  | none => rw [hl] at hp; simp at hp
  | some st =>
    rw [hl] at hp
    simp only [beq_iff_eq] at hp
    exact ⟨st, rfl, hp⟩

/-- A filter with a singleton result pins down find?. -/
theorem find?_of_filter_singleton {α : Type} (p : α → Bool) :
    ∀ (l : List α) (x : α), l.filter p = [x] → l.find? p = some x := by
  intro l
  induction l with
  | nil => intro x h; simp at h
  | cons a rest ih =>
    intro x h
    by_cases ha : p a
    · rw [List.filter_cons_of_pos ha] at h
      rw [List.find?_cons_of_pos _ ha]
      simp only [List.cons.injEq] at h
      rw [h.1]
    · rw [List.filter_cons_of_neg (by simpa using ha)] at h
      rw [List.find?_cons_of_neg _ (by simpa using ha)]
      exact ih x h

/-- An empty filter means find? fails. -/
theorem find?_of_filter_nil {α : Type} (p : α → Bool) (l : List α)
    (h : l.filter p = []) : l.find? p = none := by
  rw [List.find?_eq_none]
  intro x hx
  have := List.filter_eq_nil.mp h
  exact fun hp => this x hx hp

/-- With no matching dependency entry the release loop is the identity. -/
theorem releaseDependents_noop (wa : Rect) (m : Nat) (c : ℚ × ℚ) :
    ∀ (f : Nat) (et : ETState),
      et.deps.find? (fun p => p.2 == m) = none →
      releaseDependents f et wa m c = et := by
  intro f et h
  cases f with
  | zero => rfl
  | succ f =>
    unfold releaseDependents
    rw [h]

/-- Deleting a key from the dependency map removes its binding. -/
theorem mapGet_mapDelete_self {α : Type} (m : List (Nat × α)) (k : Nat) :
    mapGet (mapDelete m k) k = none := by
  unfold mapGet mapDelete
  rw [List.find?_eq_none.mpr]
  · rfl
  · intro q hq
    have h2 := (List.mem_filter.mp hq).2
    simp only [bne_iff_ne, ne_eq, decide_eq_true_eq] at h2
    simpa using h2

/-- Key uniqueness in an association list forces a unique value per key. -/
theorem keysNodup_unique_value :
    ∀ (l : List (Nat × Nat)), (l.map Prod.fst).Nodup →
      ∀ d m1 m2, (d, m1) ∈ l → (d, m2) ∈ l → m1 = m2 := by
  intro l
  induction l with
  | nil => intro _ d m1 m2 h1; simp at h1
  | cons p rest ih =>
    intro hnd d m1 m2 h1 h2
    rw [List.map_cons, List.nodup_cons] at hnd
    rcases List.mem_cons.mp h1 with he1 | ht1
    · rcases List.mem_cons.mp h2 with he2 | ht2
      · rw [← he1] at he2; exact (Prod.mk.injEq _ _ _ _ ▸ he2.symm).2
      · exfalso
        exact hnd.1 (List.mem_map.mpr ⟨(d, m2), ht2, by rw [← he1]⟩)
    · rcases List.mem_cons.mp h2 with he2 | ht2
      · exfalso
        exact hnd.1 (List.mem_map.mpr ⟨(d, m1), ht1, by rw [← he2]⟩)
      · exact ih hnd.2 d m1 m2 ht1 ht2

/-- Removing an edge-tiled window with no dependents of its own leaves the
dependency map intact and clears the window's zone (the promotion branch is
skipped because the saved zone is not a quarter). -/
theorem removeTileFuel_isolated (f : Nat) (et : ETState) (wa : Rect) (i : Nat)
    (c : ℚ × ℚ) (st : WState)
    (hst : lookupState et.states i = some st)
    (hz : (st.zone == TileZone.NONE) = false)
    (hq : isQuarterZone st.zone = false)
    (hdeps : et.deps.find? (fun p => p.2 == i) = none) :
    (removeTileFuel (f + 1) et wa i c).states = setZone et.states i TileZone.NONE ∧
    (removeTileFuel (f + 1) et wa i c).deps = et.deps := by
  have hrel : releaseDependents f
      { et with resizeListeners := et.resizeListeners.filter (fun x => x != i) } wa i c =
      { et with resizeListeners := et.resizeListeners.filter (fun x => x != i) } :=
    releaseDependents_noop wa i c f _ hdeps
  have hz1 : zoneOf et.states i = st.zone := by
    unfold zoneOf; rw [hst]
  show (removeTileFuel (Nat.succ f) et wa i c).states = _ ∧
    (removeTileFuel (Nat.succ f) et wa i c).deps = _
  unfold removeTileFuel
  rw [hst]
  simp only [hz, Bool.false_eq_true, if_false, hrel, hz1, hq]
  cases hfb : findWindowById et.windows i with
  | none => simp only [hfb]; exact ⟨trivial, trivial⟩
  | some w =>
    cases hmx : (w.maximizedH || w.maximizedV) with
    | false => simp only [hfb, hmx, Bool.false_eq_true, if_false]; exact ⟨trivial, trivial⟩
    | true => simp only [hfb, hmx, if_true]; exact ⟨trivial, trivial⟩

/-- The release loop of removeTile when exactly one dependency entry points at
the master: the dependent is untiled and its entry deleted. -/
theorem releaseDependents_single (f : Nat) (et : ETState) (wa : Rect)
    (m dep : Nat) (c : ℚ × ℚ) (dst : WState) (dw : Win)
    (hfilter : et.deps.filter (fun p => p.2 == m) = [(dep, m)])
    (hnodep : et.deps.filter (fun p => p.2 == dep) = [])
    (hd : lookupState et.states dep = some dst)
    (hdz : (dst.zone == TileZone.NONE) = false)
    (hdq : isQuarterZone dst.zone = false)
    (hdw : findWindowById et.windows dep = some dw) :
    (releaseDependents (f + 2) et wa m c).states = setZone et.states dep TileZone.NONE ∧
    (releaseDependents (f + 2) et wa m c).deps = mapDelete et.deps dep := by
  have hdwid : dw.id = dep := by
    have h := List.find?_some hdw
    simpa using h
  have hfind : et.deps.find? (fun p => p.2 == m) = some (dep, m) :=
    find?_of_filter_singleton _ _ _ hfilter
  have hinner := removeTileFuel_isolated f et wa dep c dst hd hdz hdq
    (find?_of_filter_nil _ _ hnodep)
  have hnone : (mapDelete et.deps dep).find? (fun p => p.2 == m) = none := by
    rw [List.find?_eq_none]
    intro q hq hq2
    have hq' := List.mem_filter.mp hq
    have hmemf : q ∈ et.deps.filter (fun p => p.2 == m) :=
      List.mem_filter.mpr ⟨hq'.1, hq2⟩
    rw [hfilter] at hmemf
    have hqe : q = (dep, m) := by simpa using hmemf
    have := hq'.2
    rw [hqe] at this
    simp at this
  show (releaseDependents (Nat.succ (f + 1)) et wa m c).states = _ ∧
    (releaseDependents (Nat.succ (f + 1)) et wa m c).deps = _
  unfold releaseDependents
  rw [hfind]
  simp only [hdw, hdwid]
  rw [releaseDependents_noop wa m c (f + 1) _ (by
    show (mapDelete (removeTileFuel (f + 1) et wa dep c).deps dep).find?
      (fun p => p.2 == m) = none
    rw [hinner.2]
    exact hnone)]
  constructor
  · show (removeTileFuel (f + 1) et wa dep c).states = _
    exact hinner.1
  · show mapDelete (removeTileFuel (f + 1) et wa dep c).deps dep = _
    rw [hinner.2]

/-- C7: for an auto-tile dependency edge dependent → master (here: the single
edge pointing at the master, with the dependent snapped to a full side zone
and itself master of nothing), removeTile on the master also untiles the
dependent (its zone returns to NONE) and deletes the dependency entry; the
dependency map keeps its keys unique, so it holds at most one master per
dependent. -/
theorem removeTile_dependency_release
    (et : ETState) (wa : Rect) (masterId dep : Nat) (c : ℚ × ℚ)
    (mst dst : WState) (dw : Win)
    (hm : lookupState et.states masterId = some mst)
    (hmz : (mst.zone == TileZone.NONE) = false)
    (hmq : isQuarterZone mst.zone = false)
    (hfilter : et.deps.filter (fun p => p.2 == masterId) = [(dep, masterId)])
    (hnodep : et.deps.filter (fun p => p.2 == dep) = [])
    (hd : lookupState et.states dep = some dst)
    (hdz : (dst.zone == TileZone.NONE) = false)
    (hdq : isQuarterZone dst.zone = false)
    (hdw : findWindowById et.windows dep = some dw)
    (hnodup : (et.deps.map Prod.fst).Nodup) :
    zoneOf (removeTile et wa masterId c).states dep = TileZone.NONE ∧
    mapGet (removeTile et wa masterId c).deps dep = none ∧
    ((removeTile et wa masterId c).deps.map Prod.fst).Nodup ∧
    (∀ d m1 m2, (d, m1) ∈ et.deps → (d, m2) ∈ et.deps → m1 = m2) := by
  have hdm : dep ≠ masterId := by
    intro he
    rw [he] at hnodep
    rw [hfilter] at hnodep
    exact List.noConfusion hnodep
  have hmem : (dep, masterId) ∈ et.deps := by
    have h1 : (dep, masterId) ∈ et.deps.filter (fun p => p.2 == masterId) := by
      rw [hfilter]; exact List.mem_singleton.mpr rfl
    exact (List.mem_filter.mp h1).1
  have hpos : 0 < et.deps.length := List.length_pos_of_mem hmem
  obtain ⟨L, hL⟩ : ∃ L, 2 * et.deps.length + 2 = Nat.succ ((2 * L + 1) + 2) :=
    ⟨et.deps.length - 1, by omega⟩
  have hsingle := releaseDependents_single (2 * L + 1)
    { et with resizeListeners := et.resizeListeners.filter (fun x => x != masterId) }
    wa masterId dep c dst dw hfilter hnodep hd hdz hdq hdw
  have hS : (releaseDependents ((2 * L + 1) + 2)
      { et with resizeListeners := et.resizeListeners.filter (fun x => x != masterId) }
      wa masterId c).states = setZone et.states dep TileZone.NONE := hsingle.1
  have hD : (releaseDependents ((2 * L + 1) + 2)
      { et with resizeListeners := et.resizeListeners.filter (fun x => x != masterId) }
      wa masterId c).deps = mapDelete et.deps dep := hsingle.2
  have hz2 : zoneOf (setZone et.states dep TileZone.NONE) masterId = mst.zone := by
    unfold zoneOf
    rw [lookupState_setZone_ne et.states masterId dep TileZone.NONE (Ne.symm hdm), hm]
  have hmain : (removeTile et wa masterId c).states =
        setZone (setZone et.states dep TileZone.NONE) masterId TileZone.NONE ∧
      (removeTile et wa masterId c).deps = mapDelete et.deps dep := by
    unfold removeTile
    rw [hL]
    unfold removeTileFuel
    rw [hm]
    simp only [hmz, Bool.false_eq_true, if_false]
    rw [hS]
    rw [hz2]
    simp only [hmq, Bool.false_eq_true, if_false]
    rw [hS, hD]
    constructor
    · split
      · split
        · rfl
        · rfl
      · rfl
    · split
      · split
        · rfl
        · rfl
      · rfl
  refine ⟨?_, ?_, ?_, keysNodup_unique_value et.deps hnodup⟩
  · rw [hmain.1]
    unfold zoneOf
    rw [lookupState_setZone_ne (setZone et.states dep TileZone.NONE) dep masterId
      TileZone.NONE hdm]
    exact zoneOf_setZone_self et.states dep
  · rw [hmain.2]
    exact mapGet_mapDelete_self et.deps dep
  · rw [hmain.2]
    unfold mapDelete
    exact List.Nodup.sublist ((List.filter_sublist _).map Prod.fst) hnodup

/-- Witness for the dependency-release theorem at the concrete scenario. -/
theorem removeTile_dependency_release_witness :
    zoneOf (removeTile c7Et ⟨0, 0, 1000, 600⟩ 1 (0, 0)).states 2 = TileZone.NONE ∧
    mapGet (removeTile c7Et ⟨0, 0, 1000, 600⟩ 1 (0, 0)).deps 2 = none ∧
    ((removeTile c7Et ⟨0, 0, 1000, 600⟩ 1 (0, 0)).deps.map Prod.fst).Nodup ∧
    (∀ d m1 m2, (d, m1) ∈ c7Et.deps → (d, m2) ∈ c7Et.deps → m1 = m2) :=
  removeTile_dependency_release c7Et ⟨0, 0, 1000, 600⟩ 1 2 (0, 0) c7Mst c7Dst c7Win2
    rfl rfl rfl rfl rfl rfl rfl rfl rfl (by decide)

/-- Writing a zone for a stored id rewrites exactly the zone field. -/
theorem lookupState_setZone_self :
    ∀ (sts : List (Nat × WState)) (k : Nat) (z : TileZone) (st : WState),
      lookupState sts k = some st →
      lookupState (setZone sts k z) k = some { st with zone := z } := by
  intro sts
  induction sts with
  | nil => intro k z st h; simp [lookupState, mapGet] at h
  | cons p rest ih =>
    intro k z st h
    unfold lookupState mapGet at h
    unfold lookupState mapGet setZone
    rw [List.map_cons]
    by_cases hp : p.1 = k
    · rw [List.find?_cons_of_pos _ (by simpa using hp)] at h
      rw [if_pos (by simpa using hp), List.find?_cons_of_pos _ (by simpa using hp)]
      have h2 : p.2 = st := by simpa using h
      rw [← h2]
      rfl
    · rw [List.find?_cons_of_neg _ (by simpa using hp)] at h
      rw [if_neg (by simpa using hp), List.find?_cons_of_neg _ (by simpa using hp)]
      exact ih k z st h

/-- find?-by-id commutes with an id-preserving map of the window list. -/
theorem findWindowById_map (f : Win → Win) (hid : ∀ w, (f w).id = w.id)
    (ws : List Win) (j : Nat) :
    findWindowById (ws.map f) j = (findWindowById ws j).map f := by
  unfold findWindowById
  induction ws with
  | nil => rfl
  | cons w rest ih =>
    rw [List.map_cons]
    by_cases hw : w.id = j
    · rw [List.find?_cons_of_pos _ (by simp [hid, hw]),
        List.find?_cons_of_pos _ (by simpa using hw)]
      rfl
    · rw [List.find?_cons_of_neg _ (by simp [hid, hw]),
        List.find?_cons_of_neg _ (by simpa using hw)]
      exact ih

/-- With distinct window ids, a listed window is the one its id finds. -/
theorem findWindowById_of_mem :
    ∀ (ws : List Win) (a : Win), (ws.map (fun w => w.id)).Nodup → a ∈ ws →
      findWindowById ws a.id = some a := by
  intro ws
  induction ws with
  | nil => intro a h1 h2; simp at h2
  | cons w rest ih =>
    intro a hnd hmem
    rw [List.map_cons, List.nodup_cons] at hnd
    unfold findWindowById
    rcases List.mem_cons.mp hmem with he | ht
    · subst he
      rw [List.find?_cons_of_pos _ (by simp)]
    · have haid : a.id ∈ rest.map (fun w => w.id) := List.mem_map.mpr ⟨a, ht, rfl⟩
      have hne : ¬(w.id == a.id) = true := by
        simp only [beq_iff_eq]
        intro he2; rw [he2] at hnd; exact hnd.1 haid
      show List.find? (fun w => w.id == a.id) (w :: rest) = some a
      rw [List.find?_cons_of_neg]
      · exact ih a hnd.2 ht
      · exact hne

/-- find?-by-id looks through a setFrame. -/
theorem findWindowById_setFrame (ws : List Win) (j k : Nat) (r : Rect) :
    findWindowById (setFrame ws j r) k =
      (findWindowById ws k).map
        (fun w => if w.id == j then { w with frame := r } else w) := by
  unfold setFrame
  exact findWindowById_map _
    (by intro w; by_cases h : (w.id == j) = true <;> simp [h]) ws k

/-- find?-by-id looks through an unmaximize. -/
theorem findWindowById_unmaximize (ws : List Win) (j k : Nat) :
    findWindowById (unmaximizeWin ws j) k =
      (findWindowById ws k).map
        (fun w => if w.id == j then
          { w with maximizedH := false, maximizedV := false } else w) := by
  unfold unmaximizeWin
  exact findWindowById_map _
    (by intro w; by_cases h : (w.id == j) = true <;> simp [h]) ws k

/-- Membership peeling through an id-preserving map. -/
theorem mem_map_id_pres {f : Win → Win} (hid : ∀ w, (f w).id = w.id) {x : Win}
    {ws : List Win} (hx : x ∈ ws.map f) : ∃ y ∈ ws, y.id = x.id := by
  obtain ⟨y, hy, he⟩ := List.mem_map.mp hx
  exact ⟨y, hy, by rw [← he, hid]⟩

/-- A quarter zone is not NONE. -/
theorem quarter_ne_none (z : TileZone) (h : isQuarterZone z = true) :
    (z == TileZone.NONE) = false := by
  cases z <;> simp_all [isQuarterZone]

/-- The adjacent quarter differs from its sibling. -/
theorem adj_ne_self (z z' : TileZone) (h : getAdjacentQuarterZone z = some z') :
    z' ≠ z := by
  cases z <;> simp only [getAdjacentQuarterZone] at h <;>
    first
      | exact h.elim
      | exact Option.noConfusion h
      | (injection h with h2; subst h2; simp)

/-- Under zone exclusivity and distinct ids, at most two windows can sit in
any pair of distinct non-NONE zones. -/
theorem filter_two_zones_le_two (et : ETState) (hex : zoneExclusive et)
    (hnd : idsNodup et) (zA zB : TileZone) (hA : zA ≠ TileZone.NONE)
    (hB : zB ≠ TileZone.NONE) :
    (et.windows.filter (fun w =>
      zoneOf et.states w.id == zA || zoneOf et.states w.id == zB)).length ≤ 2 := by
  by_contra hlen
  have hlt : 2 < (et.windows.filter (fun w =>
      zoneOf et.states w.id == zA || zoneOf et.states w.id == zB)).length :=
    Nat.lt_of_not_le (fun hc => hlen hc)
  have hsub : List.Sublist (et.windows.filter (fun w =>
      zoneOf et.states w.id == zA || zoneOf et.states w.id == zB)) et.windows :=
    List.filter_sublist _
  have hndf : ((et.windows.filter (fun w =>
      zoneOf et.states w.id == zA || zoneOf et.states w.id == zB)).map
        (fun w => w.id)).Nodup :=
    List.Nodup.sublist (hsub.map (fun w => w.id)) hnd
  have hmemf : ∀ u ∈ (et.windows.filter (fun w =>
      zoneOf et.states w.id == zA || zoneOf et.states w.id == zB)),
      u ∈ et.windows ∧ (zoneOf et.states u.id = zA ∨ zoneOf et.states u.id = zB) := by
    intro u hu
    have h1 := List.mem_filter.mp hu
    refine ⟨h1.1, ?_⟩
    have h2 := h1.2
    simp only [Bool.or_eq_true, beq_iff_eq] at h2
    exact h2
  have hpair : ∀ u v, u ∈ et.windows → v ∈ et.windows → u.id ≠ v.id →
      ∀ zz, zz ≠ TileZone.NONE → zoneOf et.states u.id = zz →
        zoneOf et.states v.id = zz → False := by
    intro u v hu hv huv zz hzz h1 h2
    exact hex u hu v hv huv (h1 ▸ hzz) (h1.trans h2.symm)
  rcases hq : et.windows.filter (fun w =>
      zoneOf et.states w.id == zA || zoneOf et.states w.id == zB) with
    _ | ⟨x, _ | ⟨y, _ | ⟨z, t⟩⟩⟩
  · rw [hq] at hlt; simp at hlt
  · rw [hq] at hlt; simp at hlt
  · rw [hq] at hlt; simp at hlt
  · have hxm := hmemf x (by rw [hq]; exact List.mem_cons_self _ _)
    have hym := hmemf y (by rw [hq]; exact List.mem_cons.mpr (Or.inr (List.mem_cons_self _ _)))
    have hzm := hmemf z (by
      rw [hq]
      exact List.mem_cons.mpr (Or.inr (List.mem_cons.mpr (Or.inr (List.mem_cons_self _ _)))))
    rw [hq] at hndf
    simp only [List.map_cons, List.nodup_cons, List.mem_cons, List.mem_map] at hndf
    have hxy : x.id ≠ y.id := fun he => hndf.1 (Or.inl he)
    have hxz : x.id ≠ z.id := fun he => hndf.1 (Or.inr (Or.inl he))
    have hyz : y.id ≠ z.id := fun he => hndf.2.1 (Or.inl he)
    rcases hxm.2 with hx1 | hx1 <;> rcases hym.2 with hy1 | hy1 <;>
      rcases hzm.2 with hz1 | hz1
    · exact hpair x y hxm.1 hym.1 hxy zA hA hx1 hy1
    · exact hpair x y hxm.1 hym.1 hxy zA hA hx1 hy1
    · exact hpair x z hxm.1 hzm.1 hxz zA hA hx1 hz1
    · exact hpair y z hym.1 hzm.1 hyz zB hB hy1 hz1
    · exact hpair y z hym.1 hzm.1 hyz zA hA hy1 hz1
    · exact hpair x z hxm.1 hzm.1 hxz zB hB hx1 hz1
    · exact hpair x y hxm.1 hym.1 hxy zB hB hx1 hy1
    · exact hpair x y hxm.1 hym.1 hxy zB hB hx1 hy1

/-- Same-side quarter occupancy bound: at most two (top + bottom). -/
theorem sideQuarter_le_two (et : ETState) (hex : zoneExclusive et)
    (hnd : idsNodup et) (left : Bool) :
    (sideQuarterWindows et left).length ≤ 2 := by
  cases left
  · exact filter_two_zones_le_two et hex hnd TileZone.TOP_RIGHT TileZone.BOTTOM_RIGHT
      (by simp) (by simp)
  · exact filter_two_zones_le_two et hex hnd TileZone.TOP_LEFT TileZone.BOTTOM_LEFT
      (by simp) (by simp)

/-- Removing a quarter tile with no dependency entries: the adjacent-quarter
occupant is promoted to the side's full zone and reframed to the full-zone
rectangle, the removed window's zone is cleared, and its own frame is
restored around the cursor. -/
theorem removeTile_promote_core
    (et : ETState) (wa : Rect) (i : Nat) (c : ℚ × ℚ) (wst : WState)
    (a : Win) (adjZone : TileZone) (fr : Rect)
    (hdeps : et.deps = [])
    (hst : lookupState et.states i = some wst)
    (hq : isQuarterZone wst.zone = true)
    (hadj : getAdjacentQuarterZone wst.zone = some adjZone)
    (ha : findWindowInZone et adjZone = some a)
    (hrect : getZoneRect et (getFullZoneFromQuarter wst.zone) wa (some a) = some fr) :
    ∃ mid : List Win,
      (removeTile et wa i c).states =
        setZone (setZone et.states a.id (getFullZoneFromQuarter wst.zone)) i
          TileZone.NONE ∧
      (removeTile et wa i c).windows =
        setFrame mid i ⟨c.1 - wst.width / 2, c.2 - 20, wst.width, wst.height⟩ ∧
      (mid = setFrame et.windows a.id fr ∨
        mid = unmaximizeWin (setFrame et.windows a.id fr) i) := by
  have hfuel : 2 * et.deps.length + 2 = Nat.succ 1 := by rw [hdeps]; rfl
  have hzn := quarter_ne_none wst.zone hq
  have hrel : releaseDependents 1
      { et with resizeListeners := et.resizeListeners.filter (fun x => x != i) } wa i c =
      { et with resizeListeners := et.resizeListeners.filter (fun x => x != i) } :=
    releaseDependents_noop wa i c 1 _ (by
      show et.deps.find? (fun p => p.2 == i) = none
      rw [hdeps]; rfl)
  have hz1 : zoneOf ({ et with
      resizeListeners := et.resizeListeners.filter (fun x => x != i) } : ETState).states i
      = wst.zone := by
    show zoneOf et.states i = wst.zone
    unfold zoneOf; rw [hst]
  have ha1 : findWindowInZone
      { et with resizeListeners := et.resizeListeners.filter (fun x => x != i) } adjZone
      = some a := ha
  have hrect1 : getZoneRect
      { et with resizeListeners := et.resizeListeners.filter (fun x => x != i) }
      (getFullZoneFromQuarter wst.zone) wa (some a) = some fr := hrect
  unfold removeTile
  rw [hfuel]
  unfold removeTileFuel
  rw [hst]
  simp only [hzn, Bool.false_eq_true, if_false, hrel, hz1, hq, if_true, hadj, ha1, hrect1]
  cases hfb : findWindowById (setFrame et.windows a.id fr) i with
  | none =>
    refine ⟨setFrame et.windows a.id fr, ?_, ?_, Or.inl rfl⟩ <;>
      simp only [hfb] <;> rfl
  | some w =>
    cases hmx : (w.maximizedH || w.maximizedV) with
    | false =>
      refine ⟨setFrame et.windows a.id fr, ?_, ?_, Or.inl rfl⟩ <;>
        simp only [hfb, hmx, Bool.false_eq_true, if_false] <;> rfl
    | true =>
      refine ⟨unmaximizeWin (setFrame et.windows a.id fr) i, ?_, ?_, Or.inr rfl⟩ <;>
        simp only [hfb, hmx, if_true] <;> rfl

/-- The adjacent quarter is never NONE. -/
theorem adj_ne_none (z z' : TileZone) (h : getAdjacentQuarterZone z = some z') :
    z' ≠ TileZone.NONE := by
  cases z <;> simp only [getAdjacentQuarterZone] at h <;>
    first
      | exact h.elim
      | exact Option.noConfusion h
      | (injection h with h2; subst h2; simp)

/-- The promoted full zone never satisfies the removed quarter's side
predicate. -/
theorem full_pred_false (qz : TileZone) (hq : isQuarterZone qz = true) :
    (if (qz == TileZone.TOP_LEFT || qz == TileZone.BOTTOM_LEFT) = true then
      (getFullZoneFromQuarter qz == TileZone.TOP_LEFT ||
        getFullZoneFromQuarter qz == TileZone.BOTTOM_LEFT)
    else
      (getFullZoneFromQuarter qz == TileZone.TOP_RIGHT ||
        getFullZoneFromQuarter qz == TileZone.BOTTOM_RIGHT)) = false := by
  cases qz <;> revert hq <;> decide

/-- NONE never satisfies a side predicate. -/
theorem none_pred_false (qz : TileZone) :
    (if (qz == TileZone.TOP_LEFT || qz == TileZone.BOTTOM_LEFT) = true then
      (TileZone.NONE == TileZone.TOP_LEFT ||
        TileZone.NONE == TileZone.BOTTOM_LEFT)
    else
      (TileZone.NONE == TileZone.TOP_RIGHT ||
        TileZone.NONE == TileZone.BOTTOM_RIGHT)) = false := by
  cases hb : (qz == TileZone.TOP_LEFT || qz == TileZone.BOTTOM_LEFT) <;> simp

/-- A zone satisfying the removed quarter's side predicate is the removed
quarter itself or its adjacent sibling. -/
theorem side_pred_zone (qz adz z : TileZone)
    (hadj : getAdjacentQuarterZone qz = some adz)
    (hp : (if (qz == TileZone.TOP_LEFT || qz == TileZone.BOTTOM_LEFT) = true then
        (z == TileZone.TOP_LEFT || z == TileZone.BOTTOM_LEFT)
      else (z == TileZone.TOP_RIGHT || z == TileZone.BOTTOM_RIGHT)) = true) :
    z = qz ∨ z = adz := by
  cases qz <;> simp only [getAdjacentQuarterZone] at hadj <;>
    first
      | exact Option.noConfusion hadj
      | (injection hadj with h2; subst h2; revert hp; cases z <;> decide)

/-- C5: with two same-side quarter tiles and no auto-tile dependencies,
removing one via removeTile promotes the surviving adjacent quarter to the
side's FULL zone, and the rectangle it receives is exactly the getZoneRect
value for a direct FULL-zone placement over the same work area and window;
after the removal the removed quarter's side holds no quarter tiles (so
occupancy never rests at 1), and under zone exclusivity with distinct ids
same-side quarter occupancy is at most 2 on either side. -/
theorem removeTile_quarter_promotion
    (et : ETState) (wa : Rect) (i : Nat) (c : ℚ × ℚ) (wst : WState)
    (wwin a : Win) (adjZone : TileZone) (fr : Rect)
    (hex : zoneExclusive et)
    (hnd : idsNodup et)
    (hdeps : et.deps = [])
    (hw : findWindowById et.windows i = some wwin)
    (hst : lookupState et.states i = some wst)
    (hq : isQuarterZone wst.zone = true)
    (hadj : getAdjacentQuarterZone wst.zone = some adjZone)
    (ha : findWindowInZone et adjZone = some a)
    (hrect : getZoneRect et (getFullZoneFromQuarter wst.zone) wa (some a) = some fr) :
    zoneOf (removeTile et wa i c).states a.id = getFullZoneFromQuarter wst.zone ∧
    findWindowById (removeTile et wa i c).windows a.id = some { a with frame := fr } ∧
    sideQuarterWindows (removeTile et wa i c)
      (wst.zone == TileZone.TOP_LEFT || wst.zone == TileZone.BOTTOM_LEFT) = [] ∧
    (sideQuarterWindows et true).length ≤ 2 ∧
    (sideQuarterWindows et false).length ≤ 2 := by
  obtain ⟨mid, hS, hW, hmid⟩ :=
    removeTile_promote_core et wa i c wst a adjZone fr hdeps hst hq hadj ha hrect
  obtain ⟨ast, hastl, hastz⟩ := findWindowInZone_zone et adjZone a ha
  have hamem : a ∈ et.windows := by
    unfold findWindowInZone at ha
    exact List.mem_of_find?_eq_some ha
  have hwmem : wwin ∈ et.windows := List.mem_of_find?_eq_some hw
  have hwid : wwin.id = i := by simpa using List.find?_some hw
  have hai : a.id ≠ i := by
    intro he
    rw [he, hst] at hastl
    injection hastl with h2
    rw [← h2] at hastz
    exact adj_ne_self wst.zone adjZone hadj hastz.symm
  have hza : zoneOf et.states a.id = adjZone := by
    unfold zoneOf; rw [hastl]; exact hastz
  have hzw : zoneOf et.states i = wst.zone := by
    unfold zoneOf; rw [hst]
  refine ⟨?_, ?_, ?_, sideQuarter_le_two et hex hnd true, sideQuarter_le_two et hex hnd false⟩
  · rw [hS]
    unfold zoneOf
    rw [lookupState_setZone_ne _ a.id i TileZone.NONE hai,
      lookupState_setZone_self et.states a.id (getFullZoneFromQuarter wst.zone) ast hastl]
  · have hbase : findWindowById (setFrame et.windows a.id fr) a.id
        = some { a with frame := fr } := by
      rw [findWindowById_setFrame, findWindowById_of_mem et.windows a hnd hamem]
      simp
    have hmid2 : findWindowById mid a.id = some { a with frame := fr } := by
      rcases hmid with h | h
      · rw [h]; exact hbase
      · rw [h, findWindowById_unmaximize, hbase]
        simp [hai]
    rw [hW, findWindowById_setFrame, hmid2]
    simp [hai]
  · unfold sideQuarterWindows
    refine List.filter_eq_nil.mpr ?_
    intro x hx
    show ¬((if (wst.zone == TileZone.TOP_LEFT || wst.zone == TileZone.BOTTOM_LEFT) = true
        then (zoneOf (removeTile et wa i c).states x.id == TileZone.TOP_LEFT ||
          zoneOf (removeTile et wa i c).states x.id == TileZone.BOTTOM_LEFT)
        else (zoneOf (removeTile et wa i c).states x.id == TileZone.TOP_RIGHT ||
          zoneOf (removeTile et wa i c).states x.id == TileZone.BOTTOM_RIGHT)) = true)
    rw [hW] at hx
    have hx1 : ∃ y ∈ mid, y.id = x.id := by
      unfold setFrame at hx
      exact mem_map_id_pres
        (by intro w; by_cases h : (w.id == i) = true <;> simp [h]) hx
    obtain ⟨y1, hy1, hid1⟩ := hx1
    have hx2 : ∃ y ∈ et.windows, y.id = y1.id := by
      rcases hmid with h | h
      · rw [h] at hy1
        unfold setFrame at hy1
        exact mem_map_id_pres
          (by intro w; by_cases hh : (w.id == a.id) = true <;> simp [hh]) hy1
      · rw [h] at hy1
        unfold unmaximizeWin at hy1
        obtain ⟨y2, hy2, hid2⟩ := mem_map_id_pres
          (by intro w; by_cases hh : (w.id == i) = true <;> simp [hh]) hy1
        unfold setFrame at hy2
        obtain ⟨y3, hy3, hid3⟩ := mem_map_id_pres
          (by intro w; by_cases hh : (w.id == a.id) = true <;> simp [hh]) hy2
        exact ⟨y3, hy3, hid3.trans hid2⟩
    obtain ⟨y, hymem, hidy⟩ := hx2
    have hyid : y.id = x.id := hidy.trans hid1
    by_cases hxi : x.id = i
    · rw [hS, hxi, zoneOf_setZone_self]
      rw [none_pred_false wst.zone]
      simp
    · by_cases hxa : x.id = a.id
      · have hzfull : zoneOf (setZone (setZone et.states a.id
            (getFullZoneFromQuarter wst.zone)) i TileZone.NONE) a.id
            = getFullZoneFromQuarter wst.zone := by
          unfold zoneOf
          rw [lookupState_setZone_ne _ a.id i TileZone.NONE hai,
            lookupState_setZone_self et.states a.id _ ast hastl]
        rw [hS, hxa, hzfull, full_pred_false wst.zone hq]
        simp
      · have hzx : zoneOf (removeTile et wa i c).states x.id
            = zoneOf et.states x.id := by
          rw [hS]
          unfold zoneOf
          rw [lookupState_setZone_ne _ x.id i TileZone.NONE hxi,
            lookupState_setZone_ne _ x.id a.id (getFullZoneFromQuarter wst.zone) hxa]
        rw [hzx]
        intro hpred
        rcases side_pred_zone wst.zone adjZone (zoneOf et.states x.id) hadj hpred with
          hz2 | hz2
        · refine hex y hymem wwin hwmem ?_ ?_ ?_
          · rw [hyid, hwid]; exact hxi
          · rw [hyid, hz2]
            intro hcn
            rw [hcn] at hq
            exact Bool.noConfusion (hq.symm.trans rfl)
          · rw [hyid, hwid, hz2, hzw]
        · refine hex y hymem a hamem ?_ ?_ ?_
          · rw [hyid]; exact hxa
          · rw [hyid, hz2]
            exact adj_ne_none wst.zone adjZone hadj
          · rw [hyid, hz2, hza]

/-- Witness for the quarter-promotion theorem at the concrete two-quarter
scenario. -/
theorem removeTile_quarter_promotion_witness :
    zoneOf (removeTile c5Et ⟨0, 0, 1000, 600⟩ 1 (0, 0)).states 2 =
      TileZone.LEFT_FULL ∧
    findWindowById (removeTile c5Et ⟨0, 0, 1000, 600⟩ 1 (0, 0)).windows 2 =
      some { plainWin 2 ⟨0, 300, 500, 300⟩ with frame := ⟨0, 0, 500, 600⟩ } ∧
    sideQuarterWindows (removeTile c5Et ⟨0, 0, 1000, 600⟩ 1 (0, 0))
      (TileZone.TOP_LEFT == TileZone.TOP_LEFT ||
        TileZone.TOP_LEFT == TileZone.BOTTOM_LEFT) = [] ∧
    (sideQuarterWindows c5Et true).length ≤ 2 ∧
    (sideQuarterWindows c5Et false).length ≤ 2 :=
  removeTile_quarter_promotion c5Et ⟨0, 0, 1000, 600⟩ 1 (0, 0)
    (tiledState ⟨0, 0, 500, 300⟩ TileZone.TOP_LEFT)
    (plainWin 1 ⟨0, 0, 500, 300⟩) (plainWin 2 ⟨0, 300, 500, 300⟩)
    TileZone.BOTTOM_LEFT ⟨0, 0, 500, 600⟩
    (by unfold zoneExclusive; decide) (by unfold idsNodup; decide)
    rfl rfl rfl rfl rfl rfl (by decide)
